import Mathlib

/-!
# Bunkered fantasy-golf scoring core, shallowly embedded

This file embeds `backend/app/core/fantasy_scoring.py` (the per-player scorer,
the lineup scorer, and the settlement pipeline over the ORM tables it drives)
into Lean, and proves the testable properties stated for it.

Python floats are modelled as real numbers; `round(x, n)` is modelled exactly
as Python's round-half-to-even on the scaled value.
-/

namespace Bunkered

noncomputable section

/-! ## Python rounding -/

/-- Python's `round` to an integer: round half to even (banker's rounding). -/
def pyRoundInt (x : ℝ) : ℤ :=
  if x - ⌊x⌋ = 1 / 2 then (if Even ⌊x⌋ then ⌊x⌋ else ⌊x⌋ + 1) else round x

/-- Python's `round(x, 2)`. -/
def pyRound2 (x : ℝ) : ℝ := (pyRoundInt (x * 100) : ℝ) / 100

/-- Python's `round(x, 3)`. -/
def pyRound3 (x : ℝ) : ℝ := (pyRoundInt (x * 1000) : ℝ) / 1000

/-! ## Data model (`backend/app/database/models.py`)

Only the columns the scoring core reads or writes are modelled; nullable
columns become `Option`. -/

/-- Row of `fantasy_leagues` (scoring-relevant columns; all are nullable
`Float` columns in the model). -/
structure FantasyLeague where
  id : Nat
  win_points : Option ℝ
  top_5_bonus : Option ℝ
  top_10_bonus : Option ℝ
  made_cut_bonus : Option ℝ
  odds_multiplier : Option ℝ

/-- Python's `v or default` on an optional float: both `None` and `0.0` are
falsy and fall through to the default. -/
def orTruthy (v : Option ℝ) (d : ℝ) : ℝ :=
  match v with
  | none => d
  | some x => if x = 0 then d else x

/-! ## `FantasyScoring` (`fantasy_scoring.py`, lines 25-202) -/

/-- State of a `FantasyScoring` instance after `__init__`. -/
structure FantasyScoring where
  win_bonus : ℝ
  top_5_bonus : ℝ
  top_10_bonus : ℝ
  made_cut_bonus : ℝ
  odds_weight : ℝ
  max_position_points : ℝ
  min_position_points : ℝ
  max_odds_multiplier : ℝ
  min_odds_multiplier : ℝ

/-- `FantasyScoring.__init__(league)`: `getattr(league, 'x', None) or default`. -/
def FantasyScoring.init (league : FantasyLeague) : FantasyScoring where
  win_bonus := orTruthy league.win_points 150.0
  top_5_bonus := orTruthy league.top_5_bonus 75.0
  top_10_bonus := orTruthy league.top_10_bonus 40.0
  made_cut_bonus := orTruthy league.made_cut_bonus 15.0
  odds_weight := orTruthy league.odds_multiplier 0.7
  max_position_points := 200.0
  min_position_points := 5.0
  max_odds_multiplier := 3.5
  min_odds_multiplier := 0.8

/-- `calculate_position_score(position, field_size)` (lines 49-81).
The source defaults `field_size` to 156; callers that rely on the default
pass 156 explicitly here. -/
def FantasyScoring.calculate_position_score (sc : FantasyScoring)
    (position : Option ℤ) (field_size : ℤ) : ℝ :=
  match position with
  | none => 0.0
  | some p =>
    if p ≤ 0 then 0.0
    else
      let p' := min p field_size
      let position_ratio : ℝ := ((field_size : ℝ) - (p' : ℝ) + 1) / (field_size : ℝ)
      let log_score := Real.log (1 + position_ratio * (Real.exp 1 - 1))
      let scaled_score := sc.min_position_points +
        (sc.max_position_points - sc.min_position_points) * log_score
      pyRound2 scaled_score

/-- `calculate_odds_multiplier(pre_tournament_odds)` (lines 83-118). -/
def FantasyScoring.calculate_odds_multiplier (sc : FantasyScoring)
    (pre_tournament_odds : Option ℝ) : ℝ :=
  match pre_tournament_odds with
  | none => 1.0
  | some odds =>
    if odds ≤ 1.0 then 1.0
    else
      let log_multiplier := 1.0 + Real.log (odds / 3.0) * 0.4
      let odds_multiplier :=
        max sc.min_odds_multiplier (min sc.max_odds_multiplier log_multiplier)
      let final_multiplier := 1.0 + (odds_multiplier - 1.0) * sc.odds_weight
      pyRound3 final_multiplier

/-- `calculate_achievement_bonuses(position, made_cut)` (lines 120-152). -/
def FantasyScoring.calculate_achievement_bonuses (sc : FantasyScoring)
    (position : Option ℤ) (made_cut : Bool) : ℝ :=
  match position with
  | none => 0.0
  | some p =>
    (if p = 1 then sc.win_bonus else 0) +
    (if p ≤ 5 then sc.top_5_bonus else 0) +
    (if p ≤ 10 then sc.top_10_bonus else 0) +
    (if made_cut then sc.made_cut_bonus else 0)

/-- Breakdown dictionary returned by `calculate_player_score`. -/
structure ScoreBreakdown where
  position_score : ℝ
  odds_multiplier : ℝ
  achievement_bonus : ℝ
  base_score : ℝ
  total_score : ℝ

/-- `calculate_player_score(position, made_cut, pre_tournament_odds,
field_size)` (lines 154-202). -/
def FantasyScoring.calculate_player_score (sc : FantasyScoring)
    (position : Option ℤ) (made_cut : Bool) (pre_tournament_odds : Option ℝ)
    (field_size : ℤ) : ScoreBreakdown :=
  if !made_cut then
    { position_score := 0.0
      odds_multiplier := 1.0
      achievement_bonus := 0.0
      base_score := 0.0
      total_score := 0.0 }
  else
    let position_score := sc.calculate_position_score position field_size
    let odds_multiplier := sc.calculate_odds_multiplier pre_tournament_odds
    let achievement_bonus := sc.calculate_achievement_bonuses position made_cut
    let base_score := position_score * odds_multiplier
    let total_score := base_score + achievement_bonus
    { position_score := position_score
      odds_multiplier := odds_multiplier
      achievement_bonus := achievement_bonus
      base_score := base_score
      total_score := pyRound2 total_score }

/-! ## Remaining data model rows -/

/-- Row of `tournament_results` (scoring-relevant columns). -/
structure TournamentResult where
  id : Nat
  tournament_id : Nat
  player_id : Nat
  position : Option ℤ
  made_cut : Bool

/-- Row of `players` (scoring-relevant columns). -/
structure Player where
  id : Nat
  name : String

/-- Row of `weekly_lineups` (scoring-relevant columns). -/
structure WeeklyLineup where
  id : Nat
  team_id : Nat
  tournament_id : Nat
  player_1_id : Nat
  player_2_id : Nat
  player_3_id : Nat
  player_1_points : ℝ
  player_2_points : ℝ
  player_3_points : ℝ
  total_points : ℝ
  player_1_odds : Option ℝ
  player_2_odds : Option ℝ
  player_3_odds : Option ℝ

/-- Row of `fantasy_teams` (scoring-relevant columns). -/
structure FantasyTeam where
  id : Nat
  user_id : Nat
  league_id : Nat
  total_points : ℝ

/-- Row of `league_memberships` (scoring-relevant columns). -/
structure LeagueMembership where
  id : Nat
  league_id : Nat
  user_id : Nat
  total_points : ℝ
  position : Option ℤ

/-- Database state visible to the scoring core: the rows of each table, in
storage order (the order an unordered query returns them in). -/
structure DB where
  results : List TournamentResult
  players : List Player
  lineups : List WeeklyLineup
  teams : List FantasyTeam
  leagues : List FantasyLeague
  memberships : List LeagueMembership

/-! ## `calculate_lineup_score` (lines 204-292) -/

/-- One entry of the `player_scores` list built for a lineup slot. -/
structure PlayerScoreEntry where
  player_id : Nat
  player_name : String
  position : Option ℤ
  made_cut : Bool
  pre_tournament_odds : Option ℝ
  score_breakdown : ScoreBreakdown
  points : ℝ

/-- Summary dictionary returned by `calculate_lineup_score`. -/
structure LineupScoreSummary where
  lineup_id : Nat
  tournament_id : Nat
  player_scores : List PlayerScoreEntry
  total_points : ℝ

/-- One iteration of the per-slot loop in `calculate_lineup_score`: look up
the slot's `TournamentResult` and `Player`, score it, and build the
`player_scores` entry.  A missing result scores as `(None, False)` with a
literal `player_score = 0.0`. -/
def FantasyScoring.scoreSlot (sc : FantasyScoring) (db : DB)
    (tournament_id player_id : Nat) (player_odds : Option ℝ)
    (field_size : ℤ) : PlayerScoreEntry :=
  let result := db.results.find? fun r =>
    r.tournament_id == tournament_id && r.player_id == player_id
  let player := db.players.find? fun p => p.id == player_id
  let player_name := (player.map Player.name).getD ("Player " ++ toString player_id)
  match result with
  | some r =>
    let score_breakdown :=
      sc.calculate_player_score r.position r.made_cut player_odds field_size
    { player_id := player_id
      player_name := player_name
      position := r.position
      made_cut := r.made_cut
      pre_tournament_odds := player_odds
      score_breakdown := score_breakdown
      points := score_breakdown.total_score }
  | none =>
    let score_breakdown := sc.calculate_player_score none false player_odds 156
    { player_id := player_id
      player_name := player_name
      position := none
      made_cut := false
      pre_tournament_odds := player_odds
      score_breakdown := score_breakdown
      points := 0.0 }

/-- `calculate_lineup_score(lineup, db)`: scores the three slots, writes the
per-slot points and the rounded total back into the lineup, and returns the
summary.  The source also looks up the `Tournament` row, but only to leave
`field_size` at its default of 156; that dead lookup cannot affect the
result. -/
def FantasyScoring.calculate_lineup_score (sc : FantasyScoring)
    (lineup : WeeklyLineup) (db : DB) : WeeklyLineup × LineupScoreSummary :=
  let field_size : ℤ := 156
  let e1 := sc.scoreSlot db lineup.tournament_id lineup.player_1_id
    lineup.player_1_odds field_size
  let e2 := sc.scoreSlot db lineup.tournament_id lineup.player_2_id
    lineup.player_2_odds field_size
  let e3 := sc.scoreSlot db lineup.tournament_id lineup.player_3_id
    lineup.player_3_odds field_size
  let total_points := 0.0 + e1.points + e2.points + e3.points
  let lineup' := { lineup with
    player_1_points := e1.points
    player_2_points := e2.points
    player_3_points := e3.points
    total_points := pyRound2 total_points }
  (lineup', { lineup_id := lineup.id
              tournament_id := lineup.tournament_id
              player_scores := [e1, e2, e3]
              total_points := pyRound2 total_points })

/-! ## Settlement pipeline (lines 295-422) -/

/-- Entry of the list returned by `update_weekly_lineup_scores`. -/
structure SettlementEntry where
  lineup_id : Nat
  team_id : Nat
  user_id : Nat
  total_points : ℝ

/-- Write an updated lineup row back into the database (in-place ORM
mutation: the row with the same id is replaced). -/
def DB.updateLineup (db : DB) (l : WeeklyLineup) : DB :=
  { db with lineups := db.lineups.map fun x => if x.id == l.id then l else x }

/-- `update_team_season_total(team_id, db)` (lines 366-404): recompute the
team's season total as the sum of `total_points` over all of its lineups and
mirror it onto the team's league-membership row.  SQL `SUM` of an empty set
is `NULL` and the source maps it to `0.0` with `or 0.0`; over the reals both
cases equal the plain sum of the (empty) list. -/
def update_team_season_total (team_id : Nat) (db : DB) : DB × ℝ :=
  match db.teams.find? fun t => t.id == team_id with
  | none => (db, 0.0)
  | some team =>
    let season_total :=
      ((db.lineups.filter fun l => l.team_id == team_id).map
        WeeklyLineup.total_points).sum
    let db1 := { db with teams := db.teams.map fun (t : FantasyTeam) =>
      if t.id == team_id then { t with total_points := season_total } else t }
    let db2 :=
      match db1.memberships.find? fun m =>
        m.league_id == team.league_id && m.user_id == team.user_id with
      | none => db1
      | some m => { db1 with memberships :=
          db1.memberships.map fun (x : LeagueMembership) =>
            if x.id == m.id then { x with total_points := season_total } else x }
    (db2, season_total)

/-- Stable insertion for `ORDER BY total_points DESC`: an element is placed
before the first stored row with a total no larger than its own, so rows
with equal totals keep their storage order. -/
def insertDesc (m : LeagueMembership) : List LeagueMembership → List LeagueMembership
  | [] => [m]
  | x :: xs =>
    if x.total_points ≤ m.total_points then m :: x :: xs else x :: insertDesc m xs

/-- Sort memberships by `total_points` descending, stably (the order the
query `ORDER BY total_points DESC` yields, with ties left in storage
order). -/
def sortDesc (ms : List LeagueMembership) : List LeagueMembership :=
  ms.foldr insertDesc []

/-- The `enumerate(memberships, 1)` loop of `update_league_standings`:
assign consecutive positions starting at `pos` along the sorted list. -/
def assignPositions (pos : ℤ) : List LeagueMembership → List LeagueMembership
  | [] => []
  | m :: ms => { m with position := some pos } :: assignPositions (pos + 1) ms

/-- The ranked list `update_league_standings` produces for a league: the
league's memberships sorted by total points descending (ties in storage
order) with positions 1, 2, ... assigned along the sorted order. -/
def standingsList (db : DB) (league_id : Nat) : List LeagueMembership :=
  assignPositions 1 (sortDesc (db.memberships.filter fun m =>
    m.league_id == league_id))

/-- `update_league_standings(league_id, db)` (lines 407-422): write the
ranked positions back onto the membership rows. -/
def update_league_standings (league_id : Nat) (db : DB) : DB :=
  let ranked := standingsList db league_id
  { db with memberships := db.memberships.map fun m =>
      match ranked.find? fun r => r.id == m.id with
      | some r => r
      | none => m }

/-- Loop 1 of `update_weekly_lineup_scores` (lines 313-338): score every
lineup of the tournament whose team and league exist, writing the updated
points back and collecting the settlement summary entries. -/
def scoreLineupsLoop (db : DB) : List Nat → DB × List SettlementEntry
  | [] => (db, [])
  | lid :: rest =>
    match db.lineups.find? fun l => l.id == lid with
    | none => scoreLineupsLoop db rest
    | some lineup =>
      match db.teams.find? fun t => t.id == lineup.team_id with
      | none => scoreLineupsLoop db rest
      | some team =>
        match db.leagues.find? fun lg => lg.id == team.league_id with
        | none => scoreLineupsLoop db rest
        | some league =>
          let sc := FantasyScoring.init league
          let scored := sc.calculate_lineup_score lineup db
          let entry : SettlementEntry :=
            { lineup_id := lineup.id
              team_id := lineup.team_id
              user_id := team.user_id
              total_points := scored.2.total_points }
          let next := scoreLineupsLoop (db.updateLineup scored.1) rest
          (next.1, entry :: next.2)

/-- Loop 2 of `update_weekly_lineup_scores` (lines 340-349): update each
touched team's season total once, deduplicating with `teams_updated`. -/
def updateTeamTotalsLoop (db : DB) : List Nat → List Nat → DB
  | [], _ => db
  | lid :: rest, done =>
    match db.lineups.find? fun l => l.id == lid with
    | none => updateTeamTotalsLoop db rest done
    | some lineup =>
      match db.teams.find? fun t => t.id == lineup.team_id with
      | none => updateTeamTotalsLoop db rest done
      | some team =>
        if done.contains team.id then updateTeamTotalsLoop db rest done
        else
          updateTeamTotalsLoop (update_team_season_total team.id db).1 rest
            (team.id :: done)

/-- Loop 3 of `update_weekly_lineup_scores` (lines 351-360): rebuild the
standings of each touched league once, deduplicating with
`leagues_updated`. -/
def updateStandingsLoop (db : DB) : List Nat → List Nat → DB
  | [], _ => db
  | lid :: rest, done =>
    match db.lineups.find? fun l => l.id == lid with
    | none => updateStandingsLoop db rest done
    | some lineup =>
      match db.teams.find? fun t => t.id == lineup.team_id with
      | none => updateStandingsLoop db rest done
      | some team =>
        if done.contains team.league_id then updateStandingsLoop db rest done
        else
          updateStandingsLoop (update_league_standings team.league_id db) rest
            (team.league_id :: done)

/-- `update_weekly_lineup_scores(tournament_id, db)` (lines 295-363): the
settlement pipeline.  The three loops all iterate over the lineups of the
tournament as captured by the initial query; mutation never changes a
lineup's id, team or tournament, so iterating over the captured ids and
re-reading each row is equivalent to the source's iteration over the live
ORM objects. -/
def update_weekly_lineup_scores (tournament_id : Nat) (db : DB) :
    DB × List SettlementEntry :=
  let lineupIds := (db.lineups.filter fun l =>
    l.tournament_id == tournament_id).map WeeklyLineup.id
  let step1 := scoreLineupsLoop db lineupIds
  let db2 := updateTeamTotalsLoop step1.1 lineupIds []
  let db3 := updateStandingsLoop db2 lineupIds []
  (db3, step1.2)

/-- Season total of a team as recorded in the database: the sum of
`total_points` over exactly that team's lineups. -/
def teamLineupSum (db : DB) (team_id : Nat) : ℝ :=
  ((db.lineups.filter fun l => l.team_id == team_id).map
    WeeklyLineup.total_points).sum

/-- Position-score formula exactly as the claim states it (spec side, for
refinement comparison with `calculate_position_score`): clamp the position
to `[1, field_size]`, form the ratio, apply `ln (1 + ratio * (e - 1))`,
rescale linearly to `[5, 200]`, and round to 2 decimals. -/
def specPositionScore (p : ℤ) (fs : ℤ) : ℝ :=
  let clamped := max 1 (min p fs)
  let ratio : ℝ := ((fs : ℝ) - (clamped : ℝ) + 1) / (fs : ℝ)
  pyRound2 (5.0 + (200.0 - 5.0) * Real.log (1 + ratio * (Real.exp 1 - 1)))

/-! ## Keys and invariants used to state the settlement properties -/

/-- Immutable part of a lineup row: everything settlement never writes. -/
def lineupKey (l : WeeklyLineup) :
    Nat × Nat × Nat × Nat × Nat × Nat × Option ℝ × Option ℝ × Option ℝ :=
  (l.id, l.team_id, l.tournament_id, l.player_1_id, l.player_2_id,
    l.player_3_id, l.player_1_odds, l.player_2_odds, l.player_3_odds)

/-- Immutable part of a team row. -/
def teamKey (t : FantasyTeam) : Nat × Nat × Nat := (t.id, t.user_id, t.league_id)

/-- Immutable part of a membership row (settlement writes only its
`total_points` and `position`). -/
def memberKey (m : LeagueMembership) : Nat × Nat × Nat :=
  (m.id, m.league_id, m.user_id)

/-- Primary-key constraint of `weekly_lineups`. -/
def lineupIdsNodup (db : DB) : Prop := (db.lineups.map WeeklyLineup.id).Nodup

/-- Primary-key constraint of `fantasy_teams`. -/
def teamIdsNodup (db : DB) : Prop := (db.teams.map FantasyTeam.id).Nodup

/-- Unique constraint `_user_league_team_uc` of `fantasy_teams`. -/
def teamPairsNodup (db : DB) : Prop :=
  (db.teams.map fun t => (t.user_id, t.league_id)).Nodup

/-- Primary-key constraint of `league_memberships`. -/
def membershipIdsNodup (db : DB) : Prop :=
  (db.memberships.map LeagueMembership.id).Nodup

/-- A team's season-total records are settled: the (unique) team row with
this id carries the sum of its lineups' totals, and the membership row the
source mirrors the total onto carries the same value. -/
def TeamOk (db : DB) (tid : Nat) : Prop :=
  ∀ t, db.teams.find? (fun x => x.id == tid) = some t →
    t.total_points = teamLineupSum db tid ∧
    ∀ m, db.memberships.find? (fun m =>
        m.league_id == t.league_id && m.user_id == t.user_id) = some m →
      m.total_points = t.total_points

/-- A league's standings are settled: re-ranking the league would write every
membership row back unchanged. -/
def StandingsOk (db : DB) (league_id : Nat) : Prop :=
  ∀ m ∈ db.memberships, ∀ r,
    (standingsList db league_id).find? (fun x => x.id == m.id) = some r → r = m

/-- The lineups of a tournament are settled: rescoring any of them (with its
team's league's configuration) writes it back unchanged. -/
def LineupsSettled (db : DB) (tournament_id : Nat) : Prop :=
  ∀ l ∈ db.lineups, l.tournament_id = tournament_id →
    ∀ team, db.teams.find? (fun x => x.id == l.team_id) = some team →
      ∀ league, db.leagues.find? (fun x => x.id == team.league_id) = some league →
        ((FantasyScoring.init league).calculate_lineup_score l db).1 = l

/-- Minimal concrete database (one league, team, membership and lineup, no
results) used to witness the settlement theorems. -/
def witnessDb : DB :=
  { results := []
    players := []
    lineups := [⟨1, 1, 1, 1, 2, 3, 0, 0, 0, 0, none, none, none⟩]
    teams := [⟨1, 1, 1, 0⟩]
    leagues := [⟨1, none, none, none, none, none⟩]
    memberships := [⟨1, 1, 1, 0, none⟩] }

/-- League row with no explicit scoring configuration (all scoring columns
NULL). -/
def defaultLeague : FantasyLeague :=
  { id := 1, win_points := none, top_5_bonus := none, top_10_bonus := none
    made_cut_bonus := none, odds_multiplier := none }

/-- League row with the example configuration used by the concrete scenario:
win 150, top-5 75, top-10 40, made-cut 15, odds-weight 0.7. -/
def exampleLeague : FantasyLeague :=
  { id := 2, win_points := some 150, top_5_bonus := some 75
    top_10_bonus := some 40, made_cut_bonus := some 15
    odds_multiplier := some 0.7 }

/-- League row explicitly configured with odds-weight 0.0 (the "ignore odds"
setting per the source's own comment). -/
def zeroWeightLeague : FantasyLeague :=
  { id := 3, win_points := some 150, top_5_bonus := some 75
    top_10_bonus := some 40, made_cut_bonus := some 15
    odds_multiplier := some 0 }

/-! ## Rounding lemmas -/

theorem pyRoundInt_intCast (n : ℤ) : pyRoundInt (n : ℝ) = n := by
  unfold pyRoundInt
  rw [Int.floor_intCast, if_neg (by norm_num), round_intCast]

theorem le_pyRoundInt (x : ℝ) : x - 1 / 2 ≤ (pyRoundInt x : ℝ) := by
  unfold pyRoundInt
  by_cases h : x - ⌊x⌋ = 1 / 2
  · rw [if_pos h]
    split_ifs with he <;> push_cast <;> linarith [Int.floor_le x]
  · rw [if_neg h]
    have hb := abs_sub_round x
    rw [abs_le] at hb
    linarith [hb.1, hb.2]

theorem pyRoundInt_le (x : ℝ) : (pyRoundInt x : ℝ) ≤ x + 1 / 2 := by
  unfold pyRoundInt
  by_cases h : x - ⌊x⌋ = 1 / 2
  · rw [if_pos h]
    split_ifs with he <;> push_cast <;> linarith [Int.floor_le x]
  · rw [if_neg h]
    have hb := abs_sub_round x
    rw [abs_le] at hb
    linarith [hb.1, hb.2]

theorem pyRoundInt_mono {x y : ℝ} (h : x ≤ y) : pyRoundInt x ≤ pyRoundInt y := by
  unfold pyRoundInt
  by_cases hx : x - ⌊x⌋ = 1 / 2 <;> by_cases hy : y - ⌊y⌋ = 1 / 2
  · rw [if_pos hx, if_pos hy]
    rcases eq_or_lt_of_le (Int.floor_mono h) with heq | hlt
    · rw [heq]
    · have : ⌊x⌋ + 1 ≤ ⌊y⌋ := hlt
      split_ifs <;> omega
  · rw [if_pos hx, if_neg hy, round_eq]
    have hx' : x + 1 / 2 = ((⌊x⌋ + 1 : ℤ) : ℝ) := by push_cast; linarith
    have h2 : ⌊x + 1 / 2⌋ = ⌊x⌋ + 1 := by rw [hx', Int.floor_intCast]
    have h3 : ⌊x + 1 / 2⌋ ≤ ⌊y + 1 / 2⌋ := Int.floor_mono (by linarith)
    split_ifs <;> omega
  · rw [if_neg hx, if_pos hy, round_eq]
    rcases eq_or_lt_of_le h with heq | hlt
    · exact absurd (heq ▸ hy) hx
    · have hy' : y = (⌊y⌋ : ℝ) + 1 / 2 := by linarith
      have h2 : ⌊x + 1 / 2⌋ < ⌊y⌋ + 1 := by
        apply Int.floor_lt.2
        push_cast
        linarith
      split_ifs <;> omega
  · rw [if_neg hx, if_neg hy, round_eq, round_eq]
    exact Int.floor_mono (by linarith)

theorem pyRoundInt_eq_of_mem {x : ℝ} {n : ℤ} (h1 : (n : ℝ) - 1 / 2 < x)
    (h2 : x < (n : ℝ) + 1 / 2) : pyRoundInt x = n := by
  have hx : ¬x - ⌊x⌋ = 1 / 2 := by
    intro hfr
    have l1 : (n : ℝ) - 1 < (⌊x⌋ : ℝ) := by linarith
    have l2 : (⌊x⌋ : ℝ) < (n : ℝ) := by linarith
    have l1' : n - 1 < ⌊x⌋ := by exact_mod_cast l1
    have l2' : ⌊x⌋ < n := by exact_mod_cast l2
    omega
  unfold pyRoundInt
  rw [if_neg hx, round_eq]
  apply Int.floor_eq_iff.2
  refine ⟨by linarith, by linarith⟩

theorem pyRound2_mono {x y : ℝ} (h : x ≤ y) : pyRound2 x ≤ pyRound2 y := by
  unfold pyRound2
  have hi := pyRoundInt_mono (by linarith : x * 100 ≤ y * 100)
  have hi' : ((pyRoundInt (x * 100) : ℤ) : ℝ) ≤ ((pyRoundInt (y * 100) : ℤ) : ℝ) := by
    exact_mod_cast hi
  linarith

theorem pyRound2_lt {x y : ℝ} (h : x + 1 / 50 ≤ y) : pyRound2 x < pyRound2 y := by
  unfold pyRound2
  have h1 := pyRoundInt_le (x * 100)
  have h2 := le_pyRoundInt (y * 100)
  have : (pyRoundInt (x * 100) : ℝ) < (pyRoundInt (y * 100) : ℝ) := by linarith
  linarith

theorem pyRound2_eq {x : ℝ} {n : ℤ} (h1 : (n : ℝ) - 1 / 2 < x * 100)
    (h2 : x * 100 < (n : ℝ) + 1 / 2) : pyRound2 x = (n : ℝ) / 100 := by
  unfold pyRound2
  rw [pyRoundInt_eq_of_mem h1 h2]

theorem pyRound3_eq {x : ℝ} {n : ℤ} (h1 : (n : ℝ) - 1 / 2 < x * 1000)
    (h2 : x * 1000 < (n : ℝ) + 1 / 2) : pyRound3 x = (n : ℝ) / 1000 := by
  unfold pyRound3
  rw [pyRoundInt_eq_of_mem h1 h2]

/-! ## Generic list lemmas -/

theorem map_eq_self {α : Type _} (f : α → α) (l : List α)
    (h : ∀ x ∈ l, f x = x) : l.map f = l := by
  induction l with
  | nil => rfl
  | cons a l ih =>
    simp only [List.map_cons]
    rw [h a (List.mem_cons_self a l),
      ih fun x hx => h x (List.mem_cons_of_mem a hx)]

theorem find?_map_pt {α : Type _} (f : α → α) (p : α → Bool) (l : List α)
    (hp : ∀ x ∈ l, p (f x) = p x) :
    (l.map f).find? p = (l.find? p).map f := by
  induction l with
  | nil => rfl
  | cons a l ih =>
    simp only [List.map_cons, List.find?]
    rw [hp a (List.mem_cons_self a l)]
    cases hpa : p a with
    | true => rfl
    | false => exact ih fun x hx => hp x (List.mem_cons_of_mem a hx)

theorem filter_map_pt {α : Type _} (f : α → α) (p : α → Bool) (l : List α)
    (hp : ∀ x ∈ l, p (f x) = p x) :
    (l.map f).filter p = (l.filter p).map f := by
  induction l with
  | nil => rfl
  | cons a l ih =>
    simp only [List.map_cons, List.filter]
    rw [hp a (List.mem_cons_self a l)]
    cases hpa : p a with
    | true =>
      simp only [List.map_cons]
      rw [ih fun x hx => hp x (List.mem_cons_of_mem a hx)]
    | false => exact ih fun x hx => hp x (List.mem_cons_of_mem a hx)

theorem find?_map_key {α β : Type _} (k : α → β) (p : α → Bool)
    (hp : ∀ x y, k x = k y → p x = p y) :
    ∀ l₁ l₂ : List α, l₁.map k = l₂.map k →
      (l₁.find? p).map k = (l₂.find? p).map k := by
  intro l₁
  induction l₁ with
  | nil =>
    intro l₂ hk
    cases l₂ with
    | nil => rfl
    | cons b l₂ => simp at hk
  | cons a l ih =>
    intro l₂ hk
    cases l₂ with
    | nil => simp at hk
    | cons b l₂ =>
      simp only [List.map_cons, List.cons.injEq] at hk
      obtain ⟨hab, hl⟩ := hk
      simp only [List.find?]
      rw [show p a = p b from hp a b hab]
      cases hpb : p b with
      | true => simp [hab]
      | false => exact ih l₂ hl

theorem find?_isSome_key {α β : Type _} (k : α → β) (p : α → Bool)
    (hp : ∀ x y, k x = k y → p x = p y) (l₁ l₂ : List α)
    (hk : l₁.map k = l₂.map k) :
    (l₁.find? p).isSome = (l₂.find? p).isSome := by
  have h := find?_map_key k p hp l₁ l₂ hk
  cases h₁ : l₁.find? p <;> cases h₂ : l₂.find? p <;>
    simp [h₁, h₂] at h ⊢

theorem eq_of_nodup_map {α β : Type _} {f : α → β} {l : List α}
    (h : (l.map f).Nodup) {x y : α} (hx : x ∈ l) (hy : y ∈ l)
    (hf : f x = f y) : x = y :=
  List.inj_on_of_nodup_map h hx hy hf

/-! ## Numeric bounds on the logarithms the scorer uses -/

theorem log_three_halves_bounds :
    (0.40540 : ℝ) ≤ Real.log (3 / 2) ∧ Real.log (3 / 2) ≤ 0.40553 := by
  have h := @Real.abs_log_sub_add_sum_range_le (-(1 / 2) : ℝ) (by norm_num [abs_lt]) 14
  simp only [Finset.sum_range_succ, Finset.sum_range_zero] at h
  norm_num at h
  rw [show |(1 : ℝ) / 2| = 1 / 2 from abs_of_nonneg (by norm_num)] at h
  rw [abs_le] at h
  norm_num at h
  constructor <;> linarith [h.1, h.2]

theorem log_eight_thirds_bounds :
    (0.98076 : ℝ) ≤ Real.log (8 / 3) ∧ Real.log (8 / 3) ≤ 0.98090 := by
  have h2 : Real.log (8 / 3) = 2 * Real.log 2 - Real.log (3 / 2) := by
    rw [show (8 : ℝ) / 3 = (2 ^ 2 : ℝ) / (3 / 2) by norm_num,
      Real.log_div (by norm_num) (by norm_num), Real.log_pow]
    push_cast
    ring
  have h3 := log_three_halves_bounds
  have l1 := Real.log_two_gt_d9
  have l2 := Real.log_two_lt_d9
  rw [h2]
  constructor <;> linarith [h3.1, h3.2]

/-! ## Closed-form evaluations of the scorer -/

/-- With the scorer's effective odds weight 0.7 and the hard-coded clamp
bounds, decimal odds 8.0 produce the multiplier 1.275 (the raw multiplier
1 + 0.4 ln(8/3) ≈ 1.39233 blends to ≈ 1.27463, which rounds up). -/
theorem odds_multiplier_eight {sc : FantasyScoring} (hw : sc.odds_weight = 0.7)
    (hmin : sc.min_odds_multiplier = 0.8) (hmax : sc.max_odds_multiplier = 3.5) :
    sc.calculate_odds_multiplier (some 8) = 1.275 := by
  have hL := log_eight_thirds_bounds
  simp only [FantasyScoring.calculate_odds_multiplier]
  rw [if_neg (by norm_num), hmin, hmax, hw]
  have harg : Real.log ((8 : ℝ) / 3.0) = Real.log (8 / 3) := by norm_num
  rw [harg]
  rw [min_eq_right (by linarith [hL.2] : (1.0 : ℝ) + Real.log (8 / 3) * 0.4 ≤ 3.5),
    max_eq_right (by linarith [hL.1] : (0.8 : ℝ) ≤ 1.0 + Real.log (8 / 3) * 0.4)]
  have h1275 : pyRound3 (1.0 + (1.0 + Real.log (8 / 3) * 0.4 - 1.0) * 0.7) =
      ((1275 : ℤ) : ℝ) / 1000 := by
    apply pyRound3_eq
    · push_cast
      linarith [hL.1]
    · push_cast
      linarith [hL.2]
  rw [h1275]
  norm_num

/-- The winner's position score at field size 156 is exactly the maximum,
200.0: the ratio is 1, so the log term is ln e = 1. -/
theorem position_score_winner {sc : FantasyScoring}
    (hmin : sc.min_position_points = 5.0) (hmax : sc.max_position_points = 200.0) :
    sc.calculate_position_score (some 1) 156 = 200 := by
  simp only [FantasyScoring.calculate_position_score]
  rw [if_neg (by norm_num), hmin, hmax]
  rw [show min (1 : ℤ) 156 = 1 from min_eq_left (by norm_num)]
  have hr : (((156 : ℤ) : ℝ) - ((1 : ℤ) : ℝ) + 1) / ((156 : ℤ) : ℝ) = 1 := by
    norm_num
  rw [hr]
  have he : (1 : ℝ) + 1 * (Real.exp 1 - 1) = Real.exp 1 := by ring
  rw [he, Real.log_exp]
  have h200 : (5.0 : ℝ) + (200.0 - 5.0) * 1 = ((200 : ℤ) : ℝ) := by norm_num
  rw [h200, show pyRound2 ((200 : ℤ) : ℝ) = ((200 : ℤ) : ℝ) by
    unfold pyRound2
    rw [show ((200 : ℤ) : ℝ) * 100 = ((20000 : ℤ) : ℝ) by norm_num, pyRoundInt_intCast]
    norm_num]
  norm_num

/-! ## Claim C1 -/

/-- C1: for every position, odds value, field size and league scoring
configuration, `made_cut = false` makes `calculate_player_score` return a
breakdown whose position_score, achievement_bonus, base_score and total_score
are all 0.0 and whose odds_multiplier is 1.0. -/
theorem C1_missed_cut_zeroing (league : FantasyLeague) (position : Option ℤ)
    (odds : Option ℝ) (field_size : ℤ) :
    ((FantasyScoring.init league).calculate_player_score position false odds
        field_size).position_score = 0 ∧
    ((FantasyScoring.init league).calculate_player_score position false odds
        field_size).achievement_bonus = 0 ∧
    ((FantasyScoring.init league).calculate_player_score position false odds
        field_size).base_score = 0 ∧
    ((FantasyScoring.init league).calculate_player_score position false odds
        field_size).total_score = 0 ∧
    ((FantasyScoring.init league).calculate_player_score position false odds
        field_size).odds_multiplier = 1 := by
  simp only [FantasyScoring.calculate_player_score, Bool.not_false, if_true]
  norm_num

/-! ## Claim C5 -/

/-- C5 counterexample: the claim says a league lacking explicit scoring
configuration falls back to a win bonus of 100; the scorer's fallback win
bonus is in fact 150. -/
theorem C5_counterexample :
    (FantasyScoring.init defaultLeague).win_bonus = 150 ∧ (150 : ℝ) ≠ 100 := by
  constructor
  · norm_num [FantasyScoring.init, defaultLeague, orTruthy]
  · norm_num

/-- C5 amended: for every league record lacking explicit scoring
configuration values, the scorer falls back to win 150, top-5 75, top-10 40,
made-cut 15 and odds-weight 0.7 (never failing, so settlement can always
proceed). -/
theorem C5_defaults (league : FantasyLeague) (h1 : league.win_points = none)
    (h2 : league.top_5_bonus = none) (h3 : league.top_10_bonus = none)
    (h4 : league.made_cut_bonus = none) (h5 : league.odds_multiplier = none) :
    (FantasyScoring.init league).win_bonus = 150 ∧
    (FantasyScoring.init league).top_5_bonus = 75 ∧
    (FantasyScoring.init league).top_10_bonus = 40 ∧
    (FantasyScoring.init league).made_cut_bonus = 15 ∧
    (FantasyScoring.init league).odds_weight = 0.7 := by
  simp only [FantasyScoring.init, h1, h2, h3, h4, h5, orTruthy]
  norm_num

/-- C5 witness: the amended fallback defaults, evaluated on a concrete league
row with all scoring columns NULL. -/
theorem C5_defaults_witness :
    defaultLeague.win_points = none ∧ defaultLeague.top_5_bonus = none ∧
    defaultLeague.top_10_bonus = none ∧ defaultLeague.made_cut_bonus = none ∧
    defaultLeague.odds_multiplier = none ∧
    ((FantasyScoring.init defaultLeague).win_bonus = 150 ∧
     (FantasyScoring.init defaultLeague).top_5_bonus = 75 ∧
     (FantasyScoring.init defaultLeague).top_10_bonus = 40 ∧
     (FantasyScoring.init defaultLeague).made_cut_bonus = 15 ∧
     (FantasyScoring.init defaultLeague).odds_weight = 0.7) :=
  ⟨rfl, rfl, rfl, rfl, rfl, C5_defaults defaultLeague rfl rfl rfl rfl rfl⟩

/-! ## Claim C6 -/

/-- C6: the claim (and the source's own comment "0.0 = ignore odds") says a
league configured with odds-weight 0 gets multiplier 1.0 for every odds
value.  In fact `getattr(league, 'odds_multiplier', None) or 0.7` treats the
configured 0.0 as falsy, so the effective weight becomes 0.7 and odds 8.0
yields 1.275 ≠ 1.0. -/
theorem C6_code_bug_eval :
    (FantasyScoring.init zeroWeightLeague).odds_weight = 0.7 ∧
    (FantasyScoring.init zeroWeightLeague).calculate_odds_multiplier (some 8) =
      1.275 ∧
    (1.275 : ℝ) ≠ 1.0 := by
  have hw : (FantasyScoring.init zeroWeightLeague).odds_weight = 0.7 := by
    norm_num [FantasyScoring.init, zeroWeightLeague, orTruthy]
  refine ⟨hw, odds_multiplier_eight hw rfl rfl, by norm_num⟩

/-! ## Claim C7 -/

/-- C7 counterexample: the claim says the position is clamped to
`[1, field_size]`, which would give position 0 the winner's score 200.0; the
source instead returns 0.0 for any position ≤ 0. -/
theorem C7_counterexample :
    (FantasyScoring.init defaultLeague).calculate_position_score (some 0) 156 =
      0 ∧
    specPositionScore 0 156 = 200 ∧ (0 : ℝ) ≠ 200 := by
  refine ⟨?_, ?_, by norm_num⟩
  · simp only [FantasyScoring.calculate_position_score]
    rw [if_pos (by norm_num)]
    norm_num
  · simp only [specPositionScore]
    rw [show min (0 : ℤ) 156 = 0 from min_eq_left (by norm_num),
      show max (1 : ℤ) 0 = 1 from max_eq_left (by norm_num)]
    have hr : (((156 : ℤ) : ℝ) - ((1 : ℤ) : ℝ) + 1) / ((156 : ℤ) : ℝ) = 1 := by
      norm_num
    rw [hr]
    have he : (1 : ℝ) + 1 * (Real.exp 1 - 1) = Real.exp 1 := by ring
    rw [he, Real.log_exp]
    have h200 : (5.0 : ℝ) + (200.0 - 5.0) * 1 = ((200 : ℤ) : ℝ) := by norm_num
    rw [h200, show pyRound2 ((200 : ℤ) : ℝ) = ((200 : ℤ) : ℝ) by
      unfold pyRound2
      rw [show ((200 : ℤ) : ℝ) * 100 = ((20000 : ℤ) : ℝ) by norm_num,
        pyRoundInt_intCast]
      norm_num]
    norm_num

/-- C7 amended: for a positive field size, a position ≥ 1 is clamped above by
the field size and scored by the claimed ratio/log/rescale/round formula; a
position ≤ 0, like a null position, yields 0.0 instead of being clamped up
to 1. -/
theorem C7_position_score (league : FantasyLeague) (p fs : ℤ) (hfs : 0 < fs) :
    (1 ≤ p →
      (FantasyScoring.init league).calculate_position_score (some p) fs =
        specPositionScore p fs) ∧
    (p ≤ 0 →
      (FantasyScoring.init league).calculate_position_score (some p) fs = 0) ∧
    (FantasyScoring.init league).calculate_position_score none fs = 0 := by
  refine ⟨fun hp => ?_, fun hp => ?_,
    by norm_num [FantasyScoring.calculate_position_score]⟩
  · simp only [FantasyScoring.calculate_position_score, specPositionScore]
    rw [if_neg (by omega)]
    have hclamp : max 1 (min p fs) = min p fs := by
      apply max_eq_right
      exact le_min hp hfs
    rw [hclamp]
    simp only [FantasyScoring.init]
  · simp only [FantasyScoring.calculate_position_score]
    rw [if_pos hp]
    norm_num

/-- C7 witness: the amended position-score characterisation evaluated at
position 2 in a field of 156. -/
theorem C7_position_score_witness :
    0 < (156 : ℤ) ∧
    ((1 ≤ (2 : ℤ) →
      (FantasyScoring.init defaultLeague).calculate_position_score (some 2) 156 =
        specPositionScore 2 156) ∧
    ((2 : ℤ) ≤ 0 →
      (FantasyScoring.init defaultLeague).calculate_position_score (some 2) 156 =
        0) ∧
    (FantasyScoring.init defaultLeague).calculate_position_score none 156 = 0) :=
  ⟨by norm_num, C7_position_score defaultLeague 2 156 (by norm_num)⟩

/-! ## Claim C8 -/

/-- C8 counterexample: the claim says the made-cut bonus is granted whenever
`made_cut` is true, including when the position is null; the source returns
0.0 for a null position even though the default made-cut bonus is 15. -/
theorem C8_counterexample :
    (FantasyScoring.init defaultLeague).calculate_achievement_bonuses none true =
      0 ∧
    (FantasyScoring.init defaultLeague).made_cut_bonus = 15 ∧ (0 : ℝ) ≠ 15 := by
  refine ⟨by norm_num [FantasyScoring.calculate_achievement_bonuses], ?_,
    by norm_num⟩
  norm_num [FantasyScoring.init, defaultLeague, orTruthy]

/-- C8 amended: for a non-null position with `made_cut` true the achievement
bonus is the sum of all independently triggered bonuses (win iff position = 1,
top-5 iff ≤ 5, top-10 iff ≤ 10, made-cut bonus given `made_cut`), so a winner
stacks all four; but a null position yields bonus 0 even when `made_cut` is
true. -/
theorem C8_achievement_bonuses (league : FantasyLeague) (p : ℤ)
    (made_cut : Bool) :
    ((FantasyScoring.init league).calculate_achievement_bonuses (some p)
        made_cut =
      (if p = 1 then (FantasyScoring.init league).win_bonus else 0) +
      (if p ≤ 5 then (FantasyScoring.init league).top_5_bonus else 0) +
      (if p ≤ 10 then (FantasyScoring.init league).top_10_bonus else 0) +
      (if made_cut then (FantasyScoring.init league).made_cut_bonus else 0)) ∧
    ((FantasyScoring.init league).calculate_achievement_bonuses (some 1) true =
      (FantasyScoring.init league).win_bonus +
      (FantasyScoring.init league).top_5_bonus +
      (FantasyScoring.init league).top_10_bonus +
      (FantasyScoring.init league).made_cut_bonus) ∧
    (FantasyScoring.init league).calculate_achievement_bonuses none made_cut =
      0 := by
  refine ⟨rfl, ?_, by norm_num [FantasyScoring.calculate_achievement_bonuses]⟩
  simp only [FantasyScoring.calculate_achievement_bonuses]
  norm_num

/-! ## Claim C10 -/

/-- C10 counterexample: in the concrete winner scenario (position 1, odds
8.0, odds-weight 0.7, field 156) the claim states an odds multiplier of
1.274; the source computes 1 + 0.28·ln(8/3) ≈ 1.27463, which rounds to three
decimals as 1.275. -/
theorem C10_counterexample :
    ((FantasyScoring.init exampleLeague).calculate_player_score (some 1) true
        (some 8) 156).odds_multiplier = 1.275 ∧
    (1.275 : ℝ) ≠ 1.274 := by
  constructor
  · have hw : (FantasyScoring.init exampleLeague).odds_weight = 0.7 := by
      norm_num [FantasyScoring.init, exampleLeague, orTruthy]
    simp only [FantasyScoring.calculate_player_score, Bool.not_true,
      Bool.false_eq_true, if_false]
    exact odds_multiplier_eight hw rfl rfl
  · norm_num

/-- C10 amended: position 1, made_cut, odds 8.0, field 156 with bonuses
150/75/40/15 and odds-weight 0.7 yields position_score 200.0, odds
multiplier 1.275, base score 255.0, achievement bonus 280 and total score
535.0. -/
theorem C10_scenario :
    ((FantasyScoring.init exampleLeague).calculate_player_score (some 1) true
        (some 8) 156).position_score = 200 ∧
    ((FantasyScoring.init exampleLeague).calculate_player_score (some 1) true
        (some 8) 156).odds_multiplier = 1.275 ∧
    ((FantasyScoring.init exampleLeague).calculate_player_score (some 1) true
        (some 8) 156).base_score = 255 ∧
    ((FantasyScoring.init exampleLeague).calculate_player_score (some 1) true
        (some 8) 156).achievement_bonus = 280 ∧
    ((FantasyScoring.init exampleLeague).calculate_player_score (some 1) true
        (some 8) 156).total_score = 535 := by
  have hw : (FantasyScoring.init exampleLeague).odds_weight = 0.7 := by
    norm_num [FantasyScoring.init, exampleLeague, orTruthy]
  have hpos : (FantasyScoring.init exampleLeague).calculate_position_score
      (some 1) 156 = 200 := position_score_winner rfl rfl
  have hodds : (FantasyScoring.init exampleLeague).calculate_odds_multiplier
      (some 8) = 1.275 := odds_multiplier_eight hw rfl rfl
  have hbonus : (FantasyScoring.init exampleLeague).calculate_achievement_bonuses
      (some 1) true = 280 := by
    simp only [FantasyScoring.calculate_achievement_bonuses]
    norm_num [FantasyScoring.init, exampleLeague, orTruthy]
  simp only [FantasyScoring.calculate_player_score, Bool.not_true,
    Bool.false_eq_true, if_false]
  rw [hpos, hodds, hbonus]
  refine ⟨rfl, rfl, by norm_num, rfl, ?_⟩
  have : (200 : ℝ) * 1.275 + 280 = ((535 : ℤ) : ℝ) := by norm_num
  rw [this, show pyRound2 ((535 : ℤ) : ℝ) = ((535 : ℤ) : ℝ) by
    unfold pyRound2
    rw [show ((535 : ℤ) : ℝ) * 100 = ((53500 : ℤ) : ℝ) by norm_num,
      pyRoundInt_intCast]
    norm_num]
  norm_num

/-! ## Claim C9 -/

/-- Closed form of the position score for a position ≥ 1. -/
theorem position_score_eq (league : FantasyLeague) (p fs : ℤ) (hp : 1 ≤ p) :
    (FantasyScoring.init league).calculate_position_score (some p) fs =
      pyRound2 (5.0 + (200.0 - 5.0) *
        Real.log (1 + (((fs : ℝ) - ((min p fs : ℤ) : ℝ) + 1) / (fs : ℝ)) *
          (Real.exp 1 - 1))) := by
  simp only [FantasyScoring.calculate_position_score, FantasyScoring.init]
  rw [if_neg (by omega)]

/-- C9: for a fixed league and positive field size, the rounded position
score is non-increasing as the position increases from 1; for field size 156
it is strictly decreasing on 1..156. -/
theorem C9_monotonicity (league : FantasyLeague) (fs p q : ℤ) :
    (0 < fs → 1 ≤ p → p ≤ q →
      (FantasyScoring.init league).calculate_position_score (some q) fs ≤
        (FantasyScoring.init league).calculate_position_score (some p) fs) ∧
    (1 ≤ p → p < q → q ≤ 156 →
      (FantasyScoring.init league).calculate_position_score (some q) 156 <
        (FantasyScoring.init league).calculate_position_score (some p) 156) := by
  have he1 := Real.exp_one_gt_d9
  have he2 := Real.exp_one_lt_d9
  constructor
  · intro hfs hp hpq
    rw [position_score_eq league p fs hp, position_score_eq league q fs (by omega)]
    apply pyRound2_mono
    have hfs' : (0 : ℝ) < (fs : ℝ) := by exact_mod_cast hfs
    have hmins : ((min p fs : ℤ) : ℝ) ≤ ((min q fs : ℤ) : ℝ) := by
      exact_mod_cast min_le_min hpq (le_refl fs)
    have hq_le : ((min q fs : ℤ) : ℝ) ≤ (fs : ℝ) := by
      exact_mod_cast min_le_right q fs
    have hrq_pos : 0 < ((fs : ℝ) - ((min q fs : ℤ) : ℝ) + 1) / (fs : ℝ) :=
      div_pos (by linarith) hfs'
    have hratio : ((fs : ℝ) - ((min q fs : ℤ) : ℝ) + 1) / (fs : ℝ) ≤
        ((fs : ℝ) - ((min p fs : ℤ) : ℝ) + 1) / (fs : ℝ) :=
      (div_le_div_iff_of_pos_right hfs').2 (by linarith)
    have hemul : ((fs : ℝ) - ((min q fs : ℤ) : ℝ) + 1) / (fs : ℝ) *
        (Real.exp 1 - 1) ≤
        ((fs : ℝ) - ((min p fs : ℤ) : ℝ) + 1) / (fs : ℝ) * (Real.exp 1 - 1) :=
      mul_le_mul_of_nonneg_right hratio (by linarith)
    have harg_pos : 0 < 1 + ((fs : ℝ) - ((min q fs : ℤ) : ℝ) + 1) / (fs : ℝ) *
        (Real.exp 1 - 1) := by
      have := mul_nonneg hrq_pos.le (by linarith : (0 : ℝ) ≤ Real.exp 1 - 1)
      linarith
    have harg_le : 1 + ((fs : ℝ) - ((min q fs : ℤ) : ℝ) + 1) / (fs : ℝ) *
        (Real.exp 1 - 1) ≤
        1 + ((fs : ℝ) - ((min p fs : ℤ) : ℝ) + 1) / (fs : ℝ) *
        (Real.exp 1 - 1) := by linarith
    have hlog := Real.log_le_log harg_pos harg_le
    linarith
  · intro hp hpq hq
    rw [position_score_eq league p 156 hp, position_score_eq league q 156 (by omega),
      show min p 156 = p from min_eq_left (by omega),
      show min q 156 = q from min_eq_left hq]
    apply pyRound2_lt
    have hpq' : (p : ℝ) + 1 ≤ (q : ℝ) := by exact_mod_cast hpq
    have hp' : (1 : ℝ) ≤ (p : ℝ) := by exact_mod_cast hp
    have hq' : (q : ℝ) ≤ 156 := by exact_mod_cast hq
    have hfs156 : ((156 : ℤ) : ℝ) = (156 : ℝ) := by norm_num
    rw [hfs156]
    set E := Real.exp 1 with hE
    set Ap := 1 + ((156 : ℝ) - (p : ℝ) + 1) / 156 * (E - 1) with hAp
    set Aq := 1 + ((156 : ℝ) - (q : ℝ) + 1) / 156 * (E - 1) with hAq
    have hE1 : (0 : ℝ) ≤ E - 1 := by rw [hE]; linarith
    have hAq_pos : 0 < Aq := by
      rw [hAq]
      have h0 : (0 : ℝ) ≤ ((156 : ℝ) - (q : ℝ) + 1) / 156 * (E - 1) :=
        mul_nonneg (div_nonneg (by linarith) (by norm_num)) hE1
      linarith
    have hAp_pos : 0 < Ap := by
      rw [hAp]
      have h0 : (0 : ℝ) ≤ ((156 : ℝ) - (p : ℝ) + 1) / 156 * (E - 1) :=
        mul_nonneg (div_nonneg (by linarith) (by norm_num)) hE1
      linarith
    have hdiff : (E - 1) / 156 ≤ Ap - Aq := by
      have heq : Ap - Aq = ((q : ℝ) - (p : ℝ)) * (E - 1) / 156 := by
        rw [hAp, hAq]
        ring
      have h1 : (1 : ℝ) ≤ (q : ℝ) - (p : ℝ) := by linarith
      have h2 : 1 * (E - 1) ≤ ((q : ℝ) - (p : ℝ)) * (E - 1) :=
        mul_le_mul_of_nonneg_right h1 hE1
      rw [heq]
      have h3 : 1 * (E - 1) / 156 ≤ ((q : ℝ) - (p : ℝ)) * (E - 1) / 156 :=
        (div_le_div_iff_of_pos_right (by norm_num)).2 h2
      linarith [h3]
    have hAp_le : Ap ≤ E := by
      rw [hAp]
      have hr : ((156 : ℝ) - (p : ℝ) + 1) / 156 ≤ 1 := by
        rw [div_le_one (by norm_num)]
        linarith
      have h4 : ((156 : ℝ) - (p : ℝ) + 1) / 156 * (E - 1) ≤ 1 * (E - 1) :=
        mul_le_mul_of_nonneg_right hr hE1
      linarith
    have hlogd : Real.log Aq - Real.log Ap ≤ (Aq - Ap) / Ap := by
      have h5 := Real.log_le_sub_one_of_pos (div_pos hAq_pos hAp_pos)
      rw [Real.log_div (ne_of_gt hAq_pos) (ne_of_gt hAp_pos)] at h5
      rw [div_sub_one (ne_of_gt hAp_pos)] at h5
      exact h5
    have hdiffpos : (0 : ℝ) ≤ Ap - Aq :=
      le_trans (div_nonneg hE1 (by norm_num)) hdiff
    have hE_pos : (0 : ℝ) < E := by rw [hE]; linarith
    have hchain1 : (Ap - Aq) / E ≤ (Ap - Aq) / Ap :=
      div_le_div_of_nonneg_left hdiffpos hAp_pos hAp_le
    have hchain2 : (E - 1) / 156 / E ≤ (Ap - Aq) / E :=
      (div_le_div_iff_of_pos_right hE_pos).2 hdiff
    have hnum : (1 : ℝ) / 50 ≤ 195 * ((E - 1) / 156 / E) := by
      rw [div_div, ← mul_div_assoc, le_div_iff₀ (by nlinarith)]
      nlinarith
    have hneg : (Aq - Ap) / Ap = -((Ap - Aq) / Ap) := by ring
    rw [hneg] at hlogd
    have hlog2 : (E - 1) / 156 / E ≤ Real.log Ap - Real.log Aq := by linarith
    have h195 : 195 * ((E - 1) / 156 / E) ≤
        195 * (Real.log Ap - Real.log Aq) :=
      mul_le_mul_of_nonneg_left hlog2 (by norm_num)
    have hfinal : (1 : ℝ) / 50 ≤ 195 * (Real.log Ap - Real.log Aq) :=
      le_trans hnum h195
    norm_num
    linarith

/-- C9 witness: the monotonicity statement applied at positions 1 and 2 in a
field of 156. -/
theorem C9_monotonicity_witness :
    (0 < (156 : ℤ) ∧ (1 : ℤ) ≤ 1 ∧ (1 : ℤ) ≤ 2 ∧
      (FantasyScoring.init defaultLeague).calculate_position_score (some 2)
          156 ≤
        (FantasyScoring.init defaultLeague).calculate_position_score (some 1)
          156) ∧
    ((1 : ℤ) ≤ 1 ∧ (1 : ℤ) < 2 ∧ (2 : ℤ) ≤ 156 ∧
      (FantasyScoring.init defaultLeague).calculate_position_score (some 2)
          156 <
        (FantasyScoring.init defaultLeague).calculate_position_score (some 1)
          156) := by
  refine ⟨⟨by norm_num, by norm_num, by norm_num, ?_⟩,
    ⟨by norm_num, by norm_num, by norm_num, ?_⟩⟩
  · exact (C9_monotonicity defaultLeague 156 1 2).1 (by norm_num) (by norm_num)
      (by norm_num)
  · exact (C9_monotonicity defaultLeague 156 1 2).2 (by norm_num) (by norm_num)
      (by norm_num)

/-! ## Claim C4 -/

theorem insertDesc_perm (m : LeagueMembership) (xs : List LeagueMembership) :
    (insertDesc m xs).Perm (m :: xs) := by
  induction xs with
  | nil => simp [insertDesc]
  | cons x xs ih =>
    simp only [insertDesc]
    split_ifs with h
    · exact List.Perm.refl _
    · exact (ih.cons x).trans (List.Perm.swap m x xs)

theorem sortDesc_perm (ms : List LeagueMembership) : (sortDesc ms).Perm ms := by
  induction ms with
  | nil => simp [sortDesc]
  | cons m ms ih =>
    simp only [sortDesc, List.foldr_cons]
    exact (insertDesc_perm m _).trans (ih.cons m)

theorem insertDesc_pairwise (m : LeagueMembership) (xs : List LeagueMembership)
    (h : xs.Pairwise fun a b => b.total_points ≤ a.total_points) :
    (insertDesc m xs).Pairwise fun a b => b.total_points ≤ a.total_points := by
  induction xs with
  | nil => simp [insertDesc]
  | cons x xs ih =>
    rcases List.pairwise_cons.1 h with ⟨hx, hxs⟩
    simp only [insertDesc]
    split_ifs with hcmp
    · refine List.pairwise_cons.2 ⟨?_, h⟩
      intro b hb
      rcases List.mem_cons.1 hb with rfl | hb
      · exact hcmp
      · exact le_trans (hx b hb) hcmp
    · refine List.pairwise_cons.2 ⟨?_, ih hxs⟩
      intro b hb
      rcases List.mem_cons.1 ((insertDesc_perm m xs).mem_iff.1 hb) with rfl | hb
      · exact le_of_not_le hcmp
      · exact hx b hb

theorem sortDesc_pairwise (ms : List LeagueMembership) :
    (sortDesc ms).Pairwise fun a b => b.total_points ≤ a.total_points := by
  induction ms with
  | nil => simp [sortDesc]
  | cons m ms ih =>
    simp only [sortDesc, List.foldr_cons]
    exact insertDesc_pairwise m _ ih

theorem assignPositions_map_position (k : ℤ) (ms : List LeagueMembership) :
    (assignPositions k ms).map LeagueMembership.position =
      (List.range ms.length).map fun (i : ℕ) => some (k + (i : ℤ)) := by
  induction ms generalizing k with
  | nil => simp [assignPositions]
  | cons m ms ih =>
    simp only [assignPositions, List.map_cons, List.length_cons,
      List.range_succ_eq_map, List.map_map]
    congr 1
    · norm_num
    · rw [ih (k + 1)]
      have hf : ((fun i : ℕ => some (k + (i : ℤ))) ∘ Nat.succ) =
          fun i : ℕ => some (k + 1 + (i : ℤ)) := by
        funext i
        simp only [Function.comp]
        congr 1
        push_cast
        ring
      rw [hf]

theorem mem_assignPositions {b : LeagueMembership} {ms : List LeagueMembership}
    (k : ℤ) (hb : b ∈ ms) :
    ∃ r ∈ assignPositions k ms, r.id = b.id ∧ r.league_id = b.league_id ∧
      r.total_points = b.total_points := by
  induction ms generalizing k with
  | nil => cases hb
  | cons m ms ih =>
    rcases List.mem_cons.1 hb with rfl | hb
    · exact ⟨{ b with position := some k }, List.mem_cons_self _ _, rfl, rfl, rfl⟩
    · rcases ih (k + 1) hb with ⟨r, hr, hfields⟩
      exact ⟨r, List.mem_cons_of_mem _ hr, hfields⟩

theorem mem_assignPositions_inv {b : LeagueMembership} {ms : List LeagueMembership}
    {k : ℤ} (hb : b ∈ assignPositions k ms) :
    ∃ a ∈ ms, b.total_points = a.total_points := by
  induction ms generalizing k with
  | nil => simp [assignPositions] at hb
  | cons m ms ih =>
    rcases List.mem_cons.1 hb with rfl | hb
    · exact ⟨m, List.mem_cons_self _ _, rfl⟩
    · rcases ih hb with ⟨a, ha, hta⟩
      exact ⟨a, List.mem_cons_of_mem _ ha, hta⟩

theorem assignPositions_pairwise (k : ℤ) (ms : List LeagueMembership)
    (h : ms.Pairwise fun a b => b.total_points ≤ a.total_points) :
    (assignPositions k ms).Pairwise fun a b => b.total_points ≤ a.total_points := by
  induction ms generalizing k with
  | nil => simp [assignPositions]
  | cons m ms ih =>
    rcases List.pairwise_cons.1 h with ⟨hm, hms⟩
    refine List.pairwise_cons.2 ⟨?_, ih (k + 1) hms⟩
    intro b hb
    rcases mem_assignPositions_inv hb with ⟨a, ha, hta⟩
    exact hta ▸ hm a ha

/-- C4 counterexample: two memberships of league 1 with equal totals, stored
with ids 2 then 1.  The claim's tie-break (ascending membership id) would
give membership 1 position 1; the source orders ties in storage order, so
membership 2 receives position 1 and membership 1 receives position 2. -/
theorem C4_counterexample :
    (update_league_standings 1
        { results := [], players := [], lineups := [], teams := [], leagues := []
          memberships := [⟨2, 1, 2, 10, none⟩, ⟨1, 1, 1, 10, none⟩] }).memberships =
      [⟨2, 1, 2, 10, some 1⟩, ⟨1, 1, 1, 10, some 2⟩] ∧
    some (2 : ℤ) ≠ some (1 : ℤ) := by
  constructor
  · norm_num [update_league_standings, standingsList, sortDesc, insertDesc,
      assignPositions, List.filter, List.foldr, List.find?]
    rfl
  · simp

/-- C4 amended: after `update_league_standings` runs on a league, the ranked
list carries the distinct contiguous positions 1..N (N = membership count of
the league) in order of non-increasing season totals — ties receive distinct
consecutive positions in storage order, not by ascending membership id — and
each member's ranked row is what is written back to the database. -/
theorem C4_standings (db : DB) (league_id : Nat) :
    ((standingsList db league_id).map LeagueMembership.position =
      (List.range (db.memberships.filter fun m =>
        m.league_id == league_id).length).map fun (i : ℕ) => some (1 + (i : ℤ))) ∧
    ((standingsList db league_id).Pairwise fun a b =>
      b.total_points ≤ a.total_points) ∧
    (∀ m ∈ db.memberships, (m.league_id == league_id) = true →
      ∃ r, ((standingsList db league_id).find? fun x => x.id == m.id) = some r ∧
        r ∈ (update_league_standings league_id db).memberships ∧ r.id = m.id) := by
  refine ⟨?_, ?_, ?_⟩
  · unfold standingsList
    rw [assignPositions_map_position, (sortDesc_perm _).length_eq]
  · exact assignPositions_pairwise 1 _ (sortDesc_pairwise _)
  · intro m hm hlg
    have hmem : m ∈ sortDesc (db.memberships.filter fun x =>
        x.league_id == league_id) :=
      (sortDesc_perm _).mem_iff.2 (List.mem_filter.2 ⟨hm, hlg⟩)
    rcases mem_assignPositions 1 hmem with ⟨r0, hr0, hid, -, -⟩
    have hfind : ((standingsList db league_id).find? fun x =>
        x.id == m.id).isSome := by
      rw [List.find?_isSome]
      exact ⟨r0, by unfold standingsList; exact hr0, by simp [hid]⟩
    rcases Option.isSome_iff_exists.1 hfind with ⟨r, hr⟩
    refine ⟨r, hr, ?_, ?_⟩
    · simp only [update_league_standings]
      exact List.mem_map.2 ⟨m, hm, by rw [hr]⟩
    · simpa using List.find?_some hr

/-- C4 witness: the amended standings statement evaluated on the concrete
one-member database. -/
theorem C4_standings_witness :
    ((standingsList witnessDb 1).map LeagueMembership.position =
      (List.range (witnessDb.memberships.filter fun m =>
        m.league_id == 1).length).map fun (i : ℕ) => some (1 + (i : ℤ))) ∧
    ((standingsList witnessDb 1).Pairwise fun a b =>
      b.total_points ≤ a.total_points) ∧
    (∀ m ∈ witnessDb.memberships, (m.league_id == 1) = true →
      ∃ r, ((standingsList witnessDb 1).find? fun x => x.id == m.id) = some r ∧
        r ∈ (update_league_standings 1 witnessDb).memberships ∧ r.id = m.id) :=
  C4_standings witnessDb 1

/-! ## Characterising `update_team_season_total` -/

theorem utst_none (tid : Nat) (db : DB)
    (h : db.teams.find? (fun x => x.id == tid) = none) :
    update_team_season_total tid db = (db, 0.0) := by
  unfold update_team_season_total
  rw [h]

theorem utst_some_none (tid : Nat) (db : DB) (team : FantasyTeam)
    (h1 : db.teams.find? (fun x => x.id == tid) = some team)
    (h2 : db.memberships.find? (fun m =>
      m.league_id == team.league_id && m.user_id == team.user_id) = none) :
    update_team_season_total tid db =
      ({ db with teams := db.teams.map fun t =>
          if t.id == tid then { t with total_points := teamLineupSum db tid }
          else t },
        teamLineupSum db tid) := by
  unfold update_team_season_total teamLineupSum
  rw [h1]
  simp only []
  rw [h2]

theorem utst_some_some (tid : Nat) (db : DB) (team : FantasyTeam)
    (m0 : LeagueMembership)
    (h1 : db.teams.find? (fun x => x.id == tid) = some team)
    (h2 : db.memberships.find? (fun m =>
      m.league_id == team.league_id && m.user_id == team.user_id) = some m0) :
    update_team_season_total tid db =
      ({ db with
          teams := db.teams.map fun t =>
            if t.id == tid then { t with total_points := teamLineupSum db tid }
            else t
          memberships := db.memberships.map fun x =>
            if x.id == m0.id then { x with total_points := teamLineupSum db tid }
            else x },
        teamLineupSum db tid) := by
  unfold update_team_season_total teamLineupSum
  rw [h1]
  simp only []
  rw [h2]

/-- Frame of `update_team_season_total`: it never touches lineups, results,
players or leagues, and preserves the immutable key of every team and
membership row. -/
theorem utst_frame (tid : Nat) (db : DB) :
    (update_team_season_total tid db).1.lineups = db.lineups ∧
    (update_team_season_total tid db).1.results = db.results ∧
    (update_team_season_total tid db).1.players = db.players ∧
    (update_team_season_total tid db).1.leagues = db.leagues ∧
    (update_team_season_total tid db).1.teams.map teamKey =
      db.teams.map teamKey ∧
    (update_team_season_total tid db).1.memberships.map memberKey =
      db.memberships.map memberKey := by
  have hteams : ∀ s : ℝ, (db.teams.map fun t =>
      if t.id == tid then { t with total_points := s } else t).map teamKey =
      db.teams.map teamKey := by
    intro s
    rw [List.map_map]
    apply List.map_congr_left
    intro t ht
    simp only [Function.comp_apply]
    split_ifs <;> rfl
  have hmems : ∀ (s : ℝ) (i : Nat), (db.memberships.map fun x =>
      if x.id == i then { x with total_points := s } else x).map memberKey =
      db.memberships.map memberKey := by
    intro s i
    rw [List.map_map]
    apply List.map_congr_left
    intro m hm
    simp only [Function.comp_apply]
    split_ifs <;> rfl
  cases h1 : db.teams.find? (fun x => x.id == tid) with
  | none => rw [utst_none tid db h1]; exact ⟨rfl, rfl, rfl, rfl, rfl, rfl⟩
  | some team =>
    cases h2 : db.memberships.find? (fun m =>
        m.league_id == team.league_id && m.user_id == team.user_id) with
    | none =>
      rw [utst_some_none tid db team h1 h2]
      exact ⟨rfl, rfl, rfl, rfl, hteams _, rfl⟩
    | some m0 =>
      rw [utst_some_some tid db team m0 h1 h2]
      exact ⟨rfl, rfl, rfl, rfl, hteams _, hmems _ _⟩

/-- Running `update_team_season_total` for a team settles that team's
aggregate invariant. -/
theorem utst_team_ok (tid : Nat) (db : DB) :
    TeamOk (update_team_season_total tid db).1 tid := by
  cases h1 : db.teams.find? (fun x => x.id == tid) with
  | none =>
    rw [utst_none tid db h1]
    intro t hfindt
    rw [h1] at hfindt
    cases hfindt
  | some team =>
    have hteamid : (team.id == tid) = true := by
      simpa using List.find?_some h1
    cases h2 : db.memberships.find? (fun m =>
        m.league_id == team.league_id && m.user_id == team.user_id) with
    | none =>
      rw [utst_some_none tid db team h1 h2]
      intro t hfindt
      rw [find?_map_pt _ _ _ (fun x _ => by split_ifs <;> rfl), h1] at hfindt
      simp only [Option.map_some'] at hfindt
      rw [if_pos hteamid] at hfindt
      cases hfindt
      constructor
      · rfl
      · intro m hfindm
        rw [h2] at hfindm
        cases hfindm
    | some m0 =>
      rw [utst_some_some tid db team m0 h1 h2]
      intro t hfindt
      rw [find?_map_pt _ _ _ (fun x _ => by split_ifs <;> rfl), h1] at hfindt
      simp only [Option.map_some'] at hfindt
      rw [if_pos hteamid] at hfindt
      cases hfindt
      constructor
      · rfl
      · intro m hfindm
        rw [find?_map_pt _ _ _ (fun x _ => by split_ifs <;> rfl), h2] at hfindm
        simp only [Option.map_some'] at hfindm
        rw [if_pos (by simp)] at hfindm
        cases hfindm
        rfl

/-- `update_team_season_total` for a different team preserves a settled
team's aggregate invariant (using the schema's unique constraints on team
(user, league) pairs and membership ids). -/
theorem utst_preserves_team_ok (tid tid' : Nat) (db : DB) (hne : tid ≠ tid')
    (hpairs : teamPairsNodup db) (hmids : membershipIdsNodup db)
    (hok : TeamOk db tid) : TeamOk (update_team_season_total tid' db).1 tid := by
  cases h1 : db.teams.find? (fun x => x.id == tid') with
  | none => rw [utst_none tid' db h1]; exact hok
  | some team' =>
    cases h2 : db.memberships.find? (fun m =>
        m.league_id == team'.league_id && m.user_id == team'.user_id) with
    | none =>
      rw [utst_some_none tid' db team' h1 h2]
      intro t hfindt
      rw [find?_map_pt _ _ _ (fun x _ => by split_ifs <;> rfl)] at hfindt
      cases h0 : db.teams.find? (fun x => x.id == tid) with
      | none => rw [h0] at hfindt; cases hfindt
      | some t0 =>
        rw [h0] at hfindt
        simp only [Option.map_some'] at hfindt
        have ht0 : t0.id = tid := by simpa using List.find?_some h0
        rw [if_neg (by simp [ht0, hne])] at hfindt
        injection hfindt with hinj
        subst hinj
        exact ⟨(hok t0 h0).1, (hok t0 h0).2⟩
    | some m0' =>
      rw [utst_some_some tid' db team' m0' h1 h2]
      intro t hfindt
      rw [find?_map_pt _ _ _ (fun x _ => by split_ifs <;> rfl)] at hfindt
      cases h0 : db.teams.find? (fun x => x.id == tid) with
      | none => rw [h0] at hfindt; cases hfindt
      | some t0 =>
        rw [h0] at hfindt
        simp only [Option.map_some'] at hfindt
        have ht0 : t0.id = tid := by simpa using List.find?_some h0
        rw [if_neg (by simp [ht0, hne])] at hfindt
        injection hfindt with hinj
        subst hinj
        refine ⟨(hok t0 h0).1, ?_⟩
        intro m hfindm
        rw [find?_map_pt _ _ _ (fun x _ => by split_ifs <;> rfl)] at hfindm
        cases hm0 : db.memberships.find? (fun m =>
            m.league_id == t0.league_id && m.user_id == t0.user_id) with
        | none => rw [hm0] at hfindm; cases hfindm
        | some m1 =>
          rw [hm0] at hfindm
          simp only [Option.map_some'] at hfindm
          have hid : ¬((m1.id == m0'.id) = true) := by
            intro hcon
            have hq : m1.id = m0'.id := by simpa using hcon
            have hm1m0 : m1 = m0' :=
              eq_of_nodup_map hmids (List.mem_of_find?_eq_some hm0)
                (List.mem_of_find?_eq_some h2) hq
            have hp1 := List.find?_some hm0
            have hp2 := List.find?_some h2
            rw [← hm1m0] at hp2
            simp only [Bool.and_eq_true, beq_iff_eq] at hp1 hp2
            have hpair : (t0.user_id, t0.league_id) =
                (team'.user_id, team'.league_id) := by
              rw [← hp1.1, ← hp1.2, hp2.1, hp2.2]
            have ht0team : t0 = team' :=
              eq_of_nodup_map hpairs (List.mem_of_find?_eq_some h0)
                (List.mem_of_find?_eq_some h1) hpair
            have hid' : team'.id = tid' := by simpa using List.find?_some h1
            exact hne (by rw [← ht0, ht0team, hid'])
          rw [if_neg hid] at hfindm
          injection hfindm with hinj2
          subst hinj2
          exact (hok t0 h0).2 m1 hm0

/-! ## Characterising `update_league_standings` -/

theorem mem_assignPositions_fields {b : LeagueMembership}
    {ms : List LeagueMembership} {k : ℤ} (hb : b ∈ assignPositions k ms) :
    ∃ a ∈ ms, b.id = a.id ∧ b.league_id = a.league_id ∧ b.user_id = a.user_id ∧
      b.total_points = a.total_points := by
  induction ms generalizing k with
  | nil => simp [assignPositions] at hb
  | cons m ms ih =>
    rcases List.mem_cons.1 hb with rfl | hb
    · exact ⟨m, List.mem_cons_self _ _, rfl, rfl, rfl, rfl⟩
    · rcases ih hb with ⟨a, ha, h⟩
      exact ⟨a, List.mem_cons_of_mem _ ha, h⟩

theorem standingsList_mem_fields {db : DB} {league_id : Nat}
    {r : LeagueMembership} (hr : r ∈ standingsList db league_id) :
    ∃ a ∈ db.memberships, r.id = a.id ∧ r.league_id = a.league_id ∧
      r.user_id = a.user_id ∧ r.total_points = a.total_points := by
  unfold standingsList at hr
  rcases mem_assignPositions_fields hr with ⟨a, ha, h⟩
  exact ⟨a, (List.mem_filter.1 ((sortDesc_perm _).mem_iff.1 ha)).1, h⟩

/-- With unique membership ids, the ranked row found for a membership carries
the same id, league, user and total (only its position may differ). -/
theorem uls_row_fields (league_id : Nat) (db : DB)
    (hids : membershipIdsNodup db) {m : LeagueMembership}
    (hm : m ∈ db.memberships) {r : LeagueMembership}
    (hr : (standingsList db league_id).find? (fun x => x.id == m.id) = some r) :
    r.id = m.id ∧ r.league_id = m.league_id ∧ r.user_id = m.user_id ∧
      r.total_points = m.total_points := by
  have hrmem := List.mem_of_find?_eq_some hr
  have hid : r.id = m.id := by simpa using List.find?_some hr
  rcases standingsList_mem_fields hrmem with ⟨a, ha, h1, h2, h3, h4⟩
  have ham : a = m := eq_of_nodup_map hids ha hm (by rw [← h1, hid])
  subst ham
  exact ⟨hid, h2, h3, h4⟩

theorem uls_members_key (league_id : Nat) (db : DB)
    (hids : membershipIdsNodup db) :
    (update_league_standings league_id db).memberships.map memberKey =
      db.memberships.map memberKey := by
  simp only [update_league_standings]
  rw [List.map_map]
  apply List.map_congr_left
  intro m hm
  simp only [Function.comp_apply]
  cases hfx : (standingsList db league_id).find? (fun r => r.id == m.id) with
  | none => rfl
  | some r =>
    have h := uls_row_fields league_id db hids hm hfx
    simp [memberKey, h.1, h.2.1, h.2.2.1]

theorem uls_preserves_team_ok (league_id tid : Nat) (db : DB)
    (hids : membershipIdsNodup db) (hok : TeamOk db tid) :
    TeamOk (update_league_standings league_id db) tid := by
  intro t hfindt
  have hfind : db.teams.find? (fun x => x.id == tid) = some t := hfindt
  refine ⟨(hok t hfind).1, ?_⟩
  intro m hfindm
  simp only [update_league_standings] at hfindm
  rw [find?_map_pt _ _ _ ?hp] at hfindm
  case hp =>
    intro x hx
    cases hfx : (standingsList db league_id).find? (fun r => r.id == x.id) with
    | none => rfl
    | some r =>
      have h := uls_row_fields league_id db hids hx hfx
      simp [h.2.1, h.2.2.1]
  cases hm0 : db.memberships.find? (fun x =>
      x.league_id == t.league_id && x.user_id == t.user_id) with
  | none => rw [hm0] at hfindm; cases hfindm
  | some m1 =>
    rw [hm0] at hfindm
    simp only [Option.map_some'] at hfindm
    have hm1mem := List.mem_of_find?_eq_some hm0
    cases hfx : (standingsList db league_id).find? (fun r => r.id == m1.id) with
    | none =>
      rw [hfx] at hfindm
      injection hfindm with hinj
      subst hinj
      exact (hok t hfind).2 m1 hm0
    | some r =>
      rw [hfx] at hfindm
      injection hfindm with hinj
      subst hinj
      rw [(uls_row_fields league_id db hids hm1mem hfx).2.2.2]
      exact (hok t hfind).2 m1 hm0

/-! ## Transporting the uniqueness constraints along key preservation -/

theorem map_comp_of_map_eq {α β γ : Type _} {l₁ l₂ : List α} {k : α → β}
    (h : l₁.map k = l₂.map k) (g : β → γ) :
    l₁.map (g ∘ k) = l₂.map (g ∘ k) := by
  rw [← List.map_map, ← List.map_map, h]

theorem lineupIds_eq_of_key {l₁ l₂ : List WeeklyLineup}
    (h : l₁.map lineupKey = l₂.map lineupKey) :
    l₁.map WeeklyLineup.id = l₂.map WeeklyLineup.id := by
  have h2 := map_comp_of_map_eq h Prod.fst
  rwa [show (Prod.fst ∘ lineupKey) = WeeklyLineup.id from funext fun l => rfl]
    at h2

theorem teamIds_eq_of_key {l₁ l₂ : List FantasyTeam}
    (h : l₁.map teamKey = l₂.map teamKey) :
    l₁.map FantasyTeam.id = l₂.map FantasyTeam.id := by
  have h2 := map_comp_of_map_eq h Prod.fst
  rwa [show (Prod.fst ∘ teamKey) = FantasyTeam.id from funext fun t => rfl]
    at h2

theorem teamPairs_eq_of_key {l₁ l₂ : List FantasyTeam}
    (h : l₁.map teamKey = l₂.map teamKey) :
    l₁.map (fun t => (t.user_id, t.league_id)) =
      l₂.map (fun t => (t.user_id, t.league_id)) := by
  have h2 := map_comp_of_map_eq h Prod.snd
  rwa [show (Prod.snd ∘ teamKey) = fun t => (t.user_id, t.league_id) from
    funext fun t => rfl] at h2

theorem memberIds_eq_of_key {l₁ l₂ : List LeagueMembership}
    (h : l₁.map memberKey = l₂.map memberKey) :
    l₁.map LeagueMembership.id = l₂.map LeagueMembership.id := by
  have h2 := map_comp_of_map_eq h Prod.fst
  rwa [show (Prod.fst ∘ memberKey) = LeagueMembership.id from
    funext fun m => rfl] at h2

/-! ## Loop 1: scoring every lineup of the tournament -/

/-- Scoring a lineup only overwrites its four points fields. -/
theorem calc_lineup_key (sc : FantasyScoring) (l : WeeklyLineup) (db : DB) :
    lineupKey (sc.calculate_lineup_score l db).1 = lineupKey l := rfl

/-- Writing back a rescored lineup preserves every lineup's immutable key
(with unique lineup ids). -/
theorem updateLineup_key (db : DB) (lineup l₁ : WeeklyLineup)
    (hnd : lineupIdsNodup db) (hmem : lineup ∈ db.lineups)
    (hkey : lineupKey l₁ = lineupKey lineup) :
    (db.updateLineup l₁).lineups.map lineupKey = db.lineups.map lineupKey := by
  simp only [DB.updateLineup]
  rw [List.map_map]
  apply List.map_congr_left
  intro x hx
  simp only [Function.comp_apply]
  split_ifs with hxe
  · have hxid : x.id = l₁.id := by simpa using hxe
    have hl₁id : l₁.id = lineup.id := congrArg Prod.fst hkey
    have hx_eq : x = lineup := eq_of_nodup_map hnd hx hmem (by rw [hxid, hl₁id])
    rw [hkey, hx_eq]
  · rfl

theorem scoreLineupsLoop_frame (ids : List Nat) : ∀ db : DB, lineupIdsNodup db →
    (scoreLineupsLoop db ids).1.results = db.results ∧
    (scoreLineupsLoop db ids).1.players = db.players ∧
    (scoreLineupsLoop db ids).1.teams = db.teams ∧
    (scoreLineupsLoop db ids).1.leagues = db.leagues ∧
    (scoreLineupsLoop db ids).1.memberships = db.memberships ∧
    (scoreLineupsLoop db ids).1.lineups.map lineupKey =
      db.lineups.map lineupKey := by
  induction ids with
  | nil => exact fun db _ => ⟨rfl, rfl, rfl, rfl, rfl, rfl⟩
  | cons lid rest ih =>
    intro db h
    simp only [scoreLineupsLoop]
    cases hl : db.lineups.find? (fun x => x.id == lid) with
    | none => exact ih db h
    | some lineup =>
      dsimp only
      cases ht : db.teams.find? (fun x => x.id == lineup.team_id) with
      | none => exact ih db h
      | some team =>
        dsimp only
        cases hlg : db.leagues.find? (fun x => x.id == team.league_id) with
        | none => exact ih db h
        | some league =>
          dsimp only
          have hkey := updateLineup_key db lineup
            ((FantasyScoring.init league).calculate_lineup_score lineup db).1
            h (List.mem_of_find?_eq_some hl)
            (calc_lineup_key (FantasyScoring.init league) lineup db)
          have hnd2 : lineupIdsNodup (db.updateLineup
              ((FantasyScoring.init league).calculate_lineup_score lineup db).1) := by
            unfold lineupIdsNodup
            rw [lineupIds_eq_of_key hkey]
            exact h
          obtain ⟨h1, h2, h3, h4, h5, h6⟩ := ih _ hnd2
          exact ⟨h1, h2, h3, h4, h5, h6.trans hkey⟩

/-! ## Loop 2: season totals for every touched team -/

theorem updateTeamTotalsLoop_spec (ids : List Nat) :
    ∀ (db : DB) (done : List Nat),
    teamPairsNodup db → membershipIdsNodup db →
    (∀ tid ∈ done, TeamOk db tid) →
    (∀ tid ∈ done, TeamOk (updateTeamTotalsLoop db ids done) tid) ∧
    (∀ lid ∈ ids, ∀ l, db.lineups.find? (fun x => x.id == lid) = some l →
      (db.teams.find? (fun x => x.id == l.team_id)).isSome = true →
      TeamOk (updateTeamTotalsLoop db ids done) l.team_id) ∧
    (updateTeamTotalsLoop db ids done).lineups = db.lineups ∧
    (updateTeamTotalsLoop db ids done).results = db.results ∧
    (updateTeamTotalsLoop db ids done).players = db.players ∧
    (updateTeamTotalsLoop db ids done).leagues = db.leagues ∧
    (updateTeamTotalsLoop db ids done).teams.map teamKey =
      db.teams.map teamKey ∧
    (updateTeamTotalsLoop db ids done).memberships.map memberKey =
      db.memberships.map memberKey := by
  induction ids with
  | nil =>
    intro db done _ _ hdone
    exact ⟨hdone, fun lid hlid => absurd hlid (List.not_mem_nil lid),
      rfl, rfl, rfl, rfl, rfl, rfl⟩
  | cons lid rest ih =>
    intro db done hpairs hmids hdone
    simp only [updateTeamTotalsLoop]
    cases hl : db.lineups.find? (fun x => x.id == lid) with
    | none =>
      dsimp only
      obtain ⟨c1, c2, c3, c4, c5, c6, c7, c8⟩ := ih db done hpairs hmids hdone
      refine ⟨c1, ?_, c3, c4, c5, c6, c7, c8⟩
      intro lid' hmem l hfindl hsome
      rcases List.mem_cons.1 hmem with rfl | hmem'
      · rw [hl] at hfindl; cases hfindl
      · exact c2 lid' hmem' l hfindl hsome
    | some lineup =>
      dsimp only
      cases ht : db.teams.find? (fun x => x.id == lineup.team_id) with
      | none =>
        dsimp only
        obtain ⟨c1, c2, c3, c4, c5, c6, c7, c8⟩ := ih db done hpairs hmids hdone
        refine ⟨c1, ?_, c3, c4, c5, c6, c7, c8⟩
        intro lid' hmem l hfindl hsome
        rcases List.mem_cons.1 hmem with rfl | hmem'
        · rw [hl] at hfindl
          injection hfindl with he
          subst he
          rw [ht] at hsome
          cases hsome
        · exact c2 lid' hmem' l hfindl hsome
      | some team =>
        dsimp only
        have hteamid : team.id = lineup.team_id := by
          simpa using List.find?_some ht
        by_cases hdn : done.contains team.id = true
        · rw [if_pos hdn]
          obtain ⟨c1, c2, c3, c4, c5, c6, c7, c8⟩ := ih db done hpairs hmids hdone
          refine ⟨c1, ?_, c3, c4, c5, c6, c7, c8⟩
          intro lid' hmem l hfindl hsome
          rcases List.mem_cons.1 hmem with rfl | hmem'
          · rw [hl] at hfindl
            injection hfindl with he
            subst he
            rw [← hteamid]
            exact c1 team.id (by simpa using hdn)
          · exact c2 lid' hmem' l hfindl hsome
        · rw [if_neg hdn]
          have hframe := utst_frame team.id db
          have hpairs₂ : teamPairsNodup (update_team_season_total team.id db).1 := by
            unfold teamPairsNodup
            rw [teamPairs_eq_of_key hframe.2.2.2.2.1]
            exact hpairs
          have hmids₂ : membershipIdsNodup (update_team_season_total team.id db).1 := by
            unfold membershipIdsNodup
            rw [memberIds_eq_of_key hframe.2.2.2.2.2]
            exact hmids
          have hdone₂ : ∀ tid ∈ team.id :: done,
              TeamOk (update_team_season_total team.id db).1 tid := by
            intro tid htid
            rcases List.mem_cons.1 htid with rfl | htid'
            · exact utst_team_ok team.id db
            · refine utst_preserves_team_ok tid team.id db ?_ hpairs hmids
                (hdone tid htid')
              intro he
              exact hdn (by rw [← he]; simpa using htid')
          obtain ⟨c1, c2, c3, c4, c5, c6, c7, c8⟩ :=
            ih (update_team_season_total team.id db).1 (team.id :: done)
              hpairs₂ hmids₂ hdone₂
          refine ⟨?_, ?_, c3.trans hframe.1, c4.trans hframe.2.1,
            c5.trans hframe.2.2.1, c6.trans hframe.2.2.2.1,
            c7.trans hframe.2.2.2.2.1, c8.trans hframe.2.2.2.2.2⟩
          · intro tid htid
            exact c1 tid (List.mem_cons_of_mem _ htid)
          · intro lid' hmem l hfindl hsome
            rcases List.mem_cons.1 hmem with rfl | hmem'
            · rw [hl] at hfindl
              injection hfindl with he
              subst he
              rw [← hteamid]
              exact c1 team.id (List.mem_cons_self _ _)
            · refine c2 lid' hmem' l ?_ ?_
              · rw [hframe.1]
                exact hfindl
              · rw [find?_isSome_key teamKey _ (fun x y hxy => by
                  have hxyid : x.id = y.id := congrArg Prod.fst hxy
                  rw [hxyid]) _ db.teams hframe.2.2.2.2.1]
                exact hsome

/-! ## Loop 3: standings for every touched league -/

theorem updateStandingsLoop_preserves (ids : List Nat) :
    ∀ (db : DB) (done : List Nat), membershipIdsNodup db →
    (updateStandingsLoop db ids done).lineups = db.lineups ∧
    (updateStandingsLoop db ids done).results = db.results ∧
    (updateStandingsLoop db ids done).players = db.players ∧
    (updateStandingsLoop db ids done).leagues = db.leagues ∧
    (updateStandingsLoop db ids done).teams = db.teams ∧
    (updateStandingsLoop db ids done).memberships.map memberKey =
      db.memberships.map memberKey ∧
    (∀ tid, TeamOk db tid → TeamOk (updateStandingsLoop db ids done) tid) := by
  induction ids with
  | nil =>
    intro db done _
    exact ⟨rfl, rfl, rfl, rfl, rfl, rfl, fun _ h => h⟩
  | cons lid rest ih =>
    intro db done hmids
    simp only [updateStandingsLoop]
    cases hl : db.lineups.find? (fun x => x.id == lid) with
    | none =>
      dsimp only
      exact ih db done hmids
    | some lineup =>
      dsimp only
      cases ht : db.teams.find? (fun x => x.id == lineup.team_id) with
      | none =>
        dsimp only
        exact ih db done hmids
      | some team =>
        dsimp only
        by_cases hdn : done.contains team.league_id = true
        · rw [if_pos hdn]
          exact ih db done hmids
        · rw [if_neg hdn]
          have hkey := uls_members_key team.league_id db hmids
          have hmids₂ : membershipIdsNodup
              (update_league_standings team.league_id db) := by
            unfold membershipIdsNodup
            rw [memberIds_eq_of_key hkey]
            exact hmids
          obtain ⟨c1, c2, c3, c4, c5, c6, c7⟩ :=
            ih (update_league_standings team.league_id db)
              (team.league_id :: done) hmids₂
          refine ⟨c1, c2, c3, c4, c5, c6.trans hkey, ?_⟩
          intro tid hok
          exact c7 tid (uls_preserves_team_ok team.league_id tid db hmids hok)

/-! ## The settlement pipeline establishes the aggregate invariant -/

theorem lineupKey_pred_congr (i : Nat) :
    ∀ x y : WeeklyLineup, lineupKey x = lineupKey y →
      (x.id == i) = (y.id == i) := by
  intro x y hxy
  have hid : x.id = y.id := congrArg Prod.fst hxy
  rw [hid]

theorem teamKey_pred_congr (i : Nat) :
    ∀ x y : FantasyTeam, teamKey x = teamKey y →
      (x.id == i) = (y.id == i) := by
  intro x y hxy
  have hid : x.id = y.id := congrArg Prod.fst hxy
  rw [hid]

/-- After a full settlement run, every team referenced by a lineup of the
settled tournament satisfies the aggregate invariant. -/
theorem settlement_team_ok (db : DB) (tournament_id : Nat)
    (h1 : lineupIdsNodup db) (h3 : teamPairsNodup db)
    (h4 : membershipIdsNodup db) :
    ∀ l ∈ db.lineups, l.tournament_id = tournament_id →
      TeamOk (update_weekly_lineup_scores tournament_id db).1 l.team_id := by
  intro l hl htid
  simp only [update_weekly_lineup_scores]
  set ids := (db.lineups.filter fun x =>
    x.tournament_id == tournament_id).map WeeklyLineup.id with hids
  obtain ⟨f1, f2, f3, f4, f5, f6⟩ := scoreLineupsLoop_frame ids db h1
  have h1b : lineupIdsNodup (scoreLineupsLoop db ids).1 := by
    unfold lineupIdsNodup
    rw [lineupIds_eq_of_key f6]
    exact h1
  have h3b : teamPairsNodup (scoreLineupsLoop db ids).1 := by
    unfold teamPairsNodup
    rw [f3]
    exact h3
  have h4b : membershipIdsNodup (scoreLineupsLoop db ids).1 := by
    unfold membershipIdsNodup
    rw [f5]
    exact h4
  have hlid_mem : l.id ∈ ids := by
    rw [hids]
    exact List.mem_map.2 ⟨l, List.mem_filter.2 ⟨hl, by simp [htid]⟩, rfl⟩
  have hfind0 : db.lineups.find? (fun x => x.id == l.id) = some l := by
    cases hf : db.lineups.find? (fun x => x.id == l.id) with
    | none =>
      have hcontra := List.find?_eq_none.1 hf l hl
      simp at hcontra
    | some l₀ =>
      have hmem := List.mem_of_find?_eq_some hf
      have hid : l₀.id = l.id := by simpa using List.find?_some hf
      rw [eq_of_nodup_map h1 hmem hl hid]
  have hmk := find?_map_key lineupKey (fun x => x.id == l.id)
    (lineupKey_pred_congr l.id) (scoreLineupsLoop db ids).1.lineups db.lineups f6
  rw [hfind0] at hmk
  obtain ⟨l₁, hfindl₁, hkeyl₁⟩ :
      ∃ l₁, (scoreLineupsLoop db ids).1.lineups.find?
        (fun x => x.id == l.id) = some l₁ ∧ lineupKey l₁ = lineupKey l := by
    cases hf1 : (scoreLineupsLoop db ids).1.lineups.find?
        (fun x => x.id == l.id) with
    | none => rw [hf1] at hmk; simp at hmk
    | some l₁ =>
      rw [hf1] at hmk
      simp only [Option.map_some'] at hmk
      exact ⟨l₁, rfl, by injection hmk⟩
  have hteamid₁ : l₁.team_id = l.team_id :=
    congrArg (fun k => k.2.1) hkeyl₁
  obtain ⟨c1, c2, d3, d4, d5, d6, d7, d8⟩ :=
    updateTeamTotalsLoop_spec ids (scoreLineupsLoop db ids).1 [] h3b h4b
      (fun tid h => absurd h (List.not_mem_nil tid))
  have h4c : membershipIdsNodup
      (updateTeamTotalsLoop (scoreLineupsLoop db ids).1 ids []) := by
    unfold membershipIdsNodup
    rw [memberIds_eq_of_key d8]
    exact h4b
  obtain ⟨e1, e2, e3, e4, e5, e6, e7⟩ :=
    updateStandingsLoop_preserves ids
      (updateTeamTotalsLoop (scoreLineupsLoop db ids).1 ids []) [] h4c
  by_cases hts : ((scoreLineupsLoop db ids).1.teams.find?
      (fun x => x.id == l.team_id)).isSome = true
  · have hok2 : TeamOk (updateTeamTotalsLoop (scoreLineupsLoop db ids).1 ids [])
        l.team_id := by
      have happ := c2 l.id hlid_mem l₁ hfindl₁ (by rw [hteamid₁]; exact hts)
      rw [hteamid₁] at happ
      exact happ
    exact e7 l.team_id hok2
  · intro t hfindt
    exfalso
    apply hts
    have hsome3 : ((updateStandingsLoop
        (updateTeamTotalsLoop (scoreLineupsLoop db ids).1 ids []) ids
          []).teams.find? (fun x => x.id == l.team_id)).isSome = true := by
      rw [hfindt]
      rfl
    rw [e5] at hsome3
    rw [find?_isSome_key teamKey _ (teamKey_pred_congr l.team_id) _
      (scoreLineupsLoop db ids).1.teams d7] at hsome3
    exact hsome3

/-! ## Claim C2 -/

/-- C2: after a settlement run completes, every team referenced by a lineup
of the settled tournament carries a season total equal to the sum of
`total_points` over exactly that team's lineups across the whole season (in
the settled state), and the league-membership row the pipeline mirrors onto
carries the same total.  The hypotheses are the schema's primary-key and
unique constraints. -/
theorem C2_aggregate_correctness (db : DB) (tournament_id : Nat)
    (h1 : lineupIdsNodup db) (h3 : teamPairsNodup db)
    (h4 : membershipIdsNodup db) :
    ∀ l ∈ db.lineups, l.tournament_id = tournament_id →
      ∀ t, (update_weekly_lineup_scores tournament_id db).1.teams.find?
          (fun x => x.id == l.team_id) = some t →
        t.total_points =
          teamLineupSum (update_weekly_lineup_scores tournament_id db).1 t.id ∧
        ∀ m, (update_weekly_lineup_scores tournament_id db).1.memberships.find?
            (fun x => x.league_id == t.league_id && x.user_id == t.user_id) =
            some m →
          m.total_points = t.total_points := by
  intro l hl htid t hfind
  have hok := settlement_team_ok db tournament_id h1 h3 h4 l hl htid t hfind
  have htid2 : t.id = l.team_id := by simpa using List.find?_some hfind
  rw [htid2]
  exact hok

/-- C2 witness: the aggregate invariant evaluated on the concrete one-team
database. -/
theorem C2_aggregate_correctness_witness :
    lineupIdsNodup witnessDb ∧ teamPairsNodup witnessDb ∧
    membershipIdsNodup witnessDb ∧
    (∀ l ∈ witnessDb.lineups, l.tournament_id = 1 →
      ∀ t, (update_weekly_lineup_scores 1 witnessDb).1.teams.find?
          (fun x => x.id == l.team_id) = some t →
        t.total_points =
          teamLineupSum (update_weekly_lineup_scores 1 witnessDb).1 t.id ∧
        ∀ m, (update_weekly_lineup_scores 1 witnessDb).1.memberships.find?
            (fun x => x.league_id == t.league_id && x.user_id == t.user_id) =
            some m →
          m.total_points = t.total_points) := by
  refine ⟨?_, ?_, ?_, ?_⟩
  · simp [lineupIdsNodup, witnessDb]
  · simp [teamPairsNodup, witnessDb]
  · simp [membershipIdsNodup, witnessDb]
  · exact C2_aggregate_correctness witnessDb 1
      (by simp [lineupIdsNodup, witnessDb])
      (by simp [teamPairsNodup, witnessDb])
      (by simp [membershipIdsNodup, witnessDb])

/-! ## Towards idempotence: scoring reads only results and players -/

theorem scoreSlot_congr (sc : FantasyScoring) {db db' : DB}
    (hres : db.results = db'.results) (hpl : db.players = db'.players)
    (t p : Nat) (o : Option ℝ) (fsz : ℤ) :
    sc.scoreSlot db t p o fsz = sc.scoreSlot db' t p o fsz := by
  unfold FantasyScoring.scoreSlot
  rw [hres, hpl]

theorem calc_lineup_congr (sc : FantasyScoring) (l : WeeklyLineup) {db db' : DB}
    (hres : db.results = db'.results) (hpl : db.players = db'.players) :
    sc.calculate_lineup_score l db = sc.calculate_lineup_score l db' := by
  simp only [FantasyScoring.calculate_lineup_score]
  rw [scoreSlot_congr sc hres hpl l.tournament_id l.player_1_id l.player_1_odds 156,
    scoreSlot_congr sc hres hpl l.tournament_id l.player_2_id l.player_2_odds 156,
    scoreSlot_congr sc hres hpl l.tournament_id l.player_3_id l.player_3_odds 156]

/-- Rescoring an already-scored lineup overwrites the points fields with the
same values: `calculate_lineup_score` is idempotent on the lineup row. -/
theorem calc_lineup_idem (sc : FantasyScoring) (l : WeeklyLineup) (db : DB) :
    sc.calculate_lineup_score (sc.calculate_lineup_score l db).1 db =
      sc.calculate_lineup_score l db := rfl

theorem filter_map_key {α β : Type _} (k : α → β) (p : α → Bool)
    (hp : ∀ x y, k x = k y → p x = p y) :
    ∀ l₁ l₂ : List α, l₁.map k = l₂.map k →
      (l₁.filter p).map k = (l₂.filter p).map k := by
  intro l₁
  induction l₁ with
  | nil =>
    intro l₂ hk
    cases l₂ with
    | nil => rfl
    | cons b l₂ => simp at hk
  | cons a l ih =>
    intro l₂ hk
    cases l₂ with
    | nil => simp at hk
    | cons b l₂ =>
      simp only [List.map_cons, List.cons.injEq] at hk
      obtain ⟨hab, hl⟩ := hk
      simp only [List.filter]
      rw [show p a = p b from hp a b hab]
      cases hpb : p b with
      | true => simp only [List.map_cons, hab, ih l₂ hl]
      | false => exact ih l₂ hl

/-- Rows whose id is not among the processed ids are untouched by loop 1. -/
theorem scoreLineupsLoop_other (ids : List Nat) : ∀ (db : DB) (i : Nat),
    i ∉ ids →
    (scoreLineupsLoop db ids).1.lineups.find? (fun x => x.id == i) =
      db.lineups.find? (fun x => x.id == i) := by
  induction ids with
  | nil => intro db i _; rfl
  | cons lid rest ih =>
    intro db i hi
    simp only [scoreLineupsLoop]
    cases hl : db.lineups.find? (fun x => x.id == lid) with
    | none => exact ih db i (fun h => hi (List.mem_cons_of_mem _ h))
    | some lineup =>
      dsimp only
      cases ht : db.teams.find? (fun x => x.id == lineup.team_id) with
      | none => exact ih db i (fun h => hi (List.mem_cons_of_mem _ h))
      | some team =>
        dsimp only
        cases hlg : db.leagues.find? (fun x => x.id == team.league_id) with
        | none => exact ih db i (fun h => hi (List.mem_cons_of_mem _ h))
        | some league =>
          dsimp only
          rw [ih _ i (fun h => hi (List.mem_cons_of_mem _ h))]
          have hlid : lineup.id = lid := by simpa using List.find?_some hl
          simp only [DB.updateLineup]
          rw [find?_map_pt _ _ _ (fun x _ => by
            split_ifs with hxe
            · have hxid : x.id =
                  ((FantasyScoring.init league).calculate_lineup_score lineup
                    db).1.id := by simpa using hxe
              rw [hxid]
            · rfl)]
          cases hf : db.lineups.find? (fun x => x.id == i) with
          | none => rfl
          | some x₀ =>
            simp only [Option.map_some']
            have hx₀ : x₀.id = i := by simpa using List.find?_some hf
            rw [if_neg]
            intro hcon
            have : x₀.id = lineup.id := by simpa using hcon
            exact hi (by rw [← hx₀, this, hlid]; exact List.mem_cons_self _ _)

/-- After loop 1, every processed lineup is a scoring fixed point: rescoring
it with its team's league writes it back unchanged. -/
theorem scoreLineupsLoop_settles (ids : List Nat) : ∀ db : DB,
    lineupIdsNodup db → ids.Nodup →
    ∀ lid ∈ ids, ∀ l₁, (scoreLineupsLoop db ids).1.lineups.find?
        (fun x => x.id == lid) = some l₁ →
      ∀ team, (scoreLineupsLoop db ids).1.teams.find?
          (fun x => x.id == l₁.team_id) = some team →
        ∀ league, (scoreLineupsLoop db ids).1.leagues.find?
            (fun x => x.id == team.league_id) = some league →
          ((FantasyScoring.init league).calculate_lineup_score l₁
            (scoreLineupsLoop db ids).1).1 = l₁ := by
  induction ids with
  | nil =>
    intro db _ _ lid hlid
    exact absurd hlid (List.not_mem_nil lid)
  | cons lid0 rest ih =>
    intro db hnd hidnd lid hmem l₁ hfindl₁ team hfindteam league hfindleague
    obtain ⟨hlid0, hrestnd⟩ := List.nodup_cons.1 hidnd
    cases hl : db.lineups.find? (fun x => x.id == lid0) with
    | none =>
      simp only [scoreLineupsLoop, hl] at hfindl₁ hfindteam hfindleague ⊢
      rcases List.mem_cons.1 hmem with rfl | hmem'
      · exfalso
        obtain ⟨-, -, -, -, -, f6⟩ := scoreLineupsLoop_frame rest db hnd
        have hmk := find?_map_key lineupKey (fun x => x.id == lid)
          (lineupKey_pred_congr lid) (scoreLineupsLoop db rest).1.lineups
          db.lineups f6
        rw [hl, hfindl₁] at hmk
        simp at hmk
      · exact ih db hnd hrestnd lid hmem' l₁ hfindl₁ team hfindteam league
          hfindleague
    | some lineup =>
      cases ht : db.teams.find? (fun x => x.id == lineup.team_id) with
      | none =>
        simp only [scoreLineupsLoop, hl, ht] at hfindl₁ hfindteam hfindleague ⊢
        rcases List.mem_cons.1 hmem with rfl | hmem'
        · exfalso
          have hoth := scoreLineupsLoop_other rest db lid hlid0
          rw [hoth, hl] at hfindl₁
          injection hfindl₁ with he
          subst he
          obtain ⟨-, -, f3, -, -, -⟩ := scoreLineupsLoop_frame rest db hnd
          rw [f3, ht] at hfindteam
          cases hfindteam
        · exact ih db hnd hrestnd lid hmem' l₁ hfindl₁ team hfindteam league
            hfindleague
      | some team₀ =>
        cases hlg : db.leagues.find? (fun x => x.id == team₀.league_id) with
        | none =>
          simp only [scoreLineupsLoop, hl, ht, hlg] at hfindl₁ hfindteam hfindleague ⊢
          rcases List.mem_cons.1 hmem with rfl | hmem'
          · exfalso
            have hoth := scoreLineupsLoop_other rest db lid hlid0
            rw [hoth, hl] at hfindl₁
            injection hfindl₁ with he
            subst he
            obtain ⟨-, -, f3, f4, -, -⟩ := scoreLineupsLoop_frame rest db hnd
            rw [f3, ht] at hfindteam
            injection hfindteam with he2
            subst he2
            rw [f4, hlg] at hfindleague
            cases hfindleague
          · exact ih db hnd hrestnd lid hmem' l₁ hfindl₁ team hfindteam league
              hfindleague
        | some league₀ =>
          simp only [scoreLineupsLoop, hl, ht, hlg] at hfindl₁ hfindteam hfindleague ⊢
          have hlineupid : lineup.id = lid0 := by simpa using List.find?_some hl
          have hkey := updateLineup_key db lineup
            ((FantasyScoring.init league₀).calculate_lineup_score lineup db).1
            hnd (List.mem_of_find?_eq_some hl)
            (calc_lineup_key (FantasyScoring.init league₀) lineup db)
          have hnd₂ : lineupIdsNodup (db.updateLineup
              ((FantasyScoring.init league₀).calculate_lineup_score lineup
                db).1) := by
            unfold lineupIdsNodup
            rw [lineupIds_eq_of_key hkey]
            exact hnd
          rcases List.mem_cons.1 hmem with rfl | hmem'
          · have hoth := scoreLineupsLoop_other rest
              (db.updateLineup ((FantasyScoring.init league₀).calculate_lineup_score
                lineup db).1) lid hlid0
            rw [hoth] at hfindl₁
            have hupd : (db.updateLineup
                ((FantasyScoring.init league₀).calculate_lineup_score lineup
                  db).1).lineups.find? (fun x => x.id == lid) =
                some ((FantasyScoring.init league₀).calculate_lineup_score
                  lineup db).1 := by
              simp only [DB.updateLineup]
              rw [find?_map_pt _ _ _ (fun x _ => by
                split_ifs with hxe
                · have hxid : x.id =
                      ((FantasyScoring.init league₀).calculate_lineup_score
                        lineup db).1.id := by simpa using hxe
                  rw [hxid]
                · rfl), hl]
              simp only [Option.map_some']
              rw [if_pos (by
                rw [show ((FantasyScoring.init league₀).calculate_lineup_score
                  lineup db).1.id = lineup.id from rfl]
                simp)]
            rw [hupd] at hfindl₁
            injection hfindl₁ with he
            subst he
            obtain ⟨fr1, fr2, f3, f4, -, -⟩ := scoreLineupsLoop_frame rest
              (db.updateLineup ((FantasyScoring.init league₀).calculate_lineup_score
                lineup db).1) hnd₂
            have fr1' : (scoreLineupsLoop (db.updateLineup
                ((FantasyScoring.init league₀).calculate_lineup_score lineup
                  db).1) rest).1.results = db.results := fr1
            have fr2' : (scoreLineupsLoop (db.updateLineup
                ((FantasyScoring.init league₀).calculate_lineup_score lineup
                  db).1) rest).1.players = db.players := fr2
            have f3' : (scoreLineupsLoop (db.updateLineup
                ((FantasyScoring.init league₀).calculate_lineup_score lineup
                  db).1) rest).1.teams = db.teams := f3
            have f4' : (scoreLineupsLoop (db.updateLineup
                ((FantasyScoring.init league₀).calculate_lineup_score lineup
                  db).1) rest).1.leagues = db.leagues := f4
            have hteamid : ((FantasyScoring.init league₀).calculate_lineup_score
                lineup db).1.team_id = lineup.team_id := rfl
            rw [f3', hteamid, ht] at hfindteam
            injection hfindteam with he2
            subst he2
            rw [f4', hlg] at hfindleague
            injection hfindleague with he3
            subst he3
            have hcongr := calc_lineup_congr (FantasyScoring.init league₀)
              ((FantasyScoring.init league₀).calculate_lineup_score lineup db).1
              fr1' fr2'
            rw [hcongr]
            exact congrArg Prod.fst (calc_lineup_idem
              (FantasyScoring.init league₀) lineup db)
          · exact ih _ hnd₂ hrestnd lid hmem' l₁ hfindl₁ team hfindteam league
              hfindleague

/-! ## Second-run identity of the three loops -/

/-- If every processed lineup is already a scoring fixed point, loop 1
leaves the state unchanged. -/
theorem scoreLineupsLoop_id (ids : List Nat) : ∀ db : DB, lineupIdsNodup db →
    (∀ lid ∈ ids, ∀ l, db.lineups.find? (fun x => x.id == lid) = some l →
      ∀ team, db.teams.find? (fun x => x.id == l.team_id) = some team →
        ∀ league, db.leagues.find? (fun x => x.id == team.league_id) =
            some league →
          ((FantasyScoring.init league).calculate_lineup_score l db).1 = l) →
    (scoreLineupsLoop db ids).1 = db := by
  induction ids with
  | nil => intro db _ _; rfl
  | cons lid rest ih =>
    intro db hnd hfix
    simp only [scoreLineupsLoop]
    cases hl : db.lineups.find? (fun x => x.id == lid) with
    | none => exact ih db hnd fun lid' h => hfix lid' (List.mem_cons_of_mem _ h)
    | some lineup =>
      dsimp only
      cases ht : db.teams.find? (fun x => x.id == lineup.team_id) with
      | none => exact ih db hnd fun lid' h => hfix lid' (List.mem_cons_of_mem _ h)
      | some team =>
        dsimp only
        cases hlg : db.leagues.find? (fun x => x.id == team.league_id) with
        | none =>
          exact ih db hnd fun lid' h => hfix lid' (List.mem_cons_of_mem _ h)
        | some league =>
          dsimp only
          have hfixed := hfix lid (List.mem_cons_self _ _) lineup hl team ht
            league hlg
          have hupd : db.updateLineup
              ((FantasyScoring.init league).calculate_lineup_score lineup
                db).1 = db := by
            rw [hfixed]
            simp only [DB.updateLineup]
            have hms : (db.lineups.map fun x =>
                if x.id == lineup.id then lineup else x) = db.lineups := by
              apply map_eq_self
              intro x hx
              split_ifs with hxe
              · exact (eq_of_nodup_map hnd hx (List.mem_of_find?_eq_some hl)
                  (by simpa using hxe)).symm
              · rfl
            rw [hms]
          rw [hupd]
          exact ih db hnd fun lid' h => hfix lid' (List.mem_cons_of_mem _ h)

/-- If a team's aggregate invariant already holds, `update_team_season_total`
writes the same values back: the state is unchanged. -/
theorem utst_id (tid : Nat) (db : DB) (h2 : teamIdsNodup db)
    (h4 : membershipIdsNodup db) (hok : TeamOk db tid) :
    (update_team_season_total tid db).1 = db := by
  cases h1 : db.teams.find? (fun x => x.id == tid) with
  | none => rw [utst_none tid db h1]
  | some team =>
    have hokt := hok team h1
    have hmapteams : (db.teams.map fun t =>
        if t.id == tid then { t with total_points := teamLineupSum db tid }
        else t) = db.teams := by
      apply map_eq_self
      intro t htm
      split_ifs with hte
      · have hteam : t = team := by
          apply eq_of_nodup_map h2 htm (List.mem_of_find?_eq_some h1)
          have h1id : team.id = tid := by simpa using List.find?_some h1
          have htid : t.id = tid := by simpa using hte
          rw [htid, h1id]
        subst hteam
        rw [← hokt.1]
      · rfl
    cases hm : db.memberships.find? (fun m =>
        m.league_id == team.league_id && m.user_id == team.user_id) with
    | none =>
      rw [utst_some_none tid db team h1 hm]
      dsimp only
      rw [hmapteams]
    | some m0 =>
      rw [utst_some_some tid db team m0 h1 hm]
      dsimp only
      have hmapmem : (db.memberships.map fun x =>
          if x.id == m0.id then { x with total_points := teamLineupSum db tid }
          else x) = db.memberships := by
        apply map_eq_self
        intro x hx
        split_ifs with hxe
        · have hxm : x = m0 := eq_of_nodup_map h4 hx
            (List.mem_of_find?_eq_some hm) (by simpa using hxe)
          rw [hxm]
          have hm0tot : m0.total_points = teamLineupSum db tid :=
            (hokt.2 m0 hm).trans hokt.1
          rw [← hm0tot]
        · rfl
      rw [hmapteams, hmapmem]

/-- If every touched team's aggregate invariant already holds, loop 2 leaves
the state unchanged. -/
theorem updateTeamTotalsLoop_id (ids : List Nat) : ∀ (db : DB) (done : List Nat),
    teamIdsNodup db → membershipIdsNodup db →
    (∀ lid ∈ ids, ∀ l, db.lineups.find? (fun x => x.id == lid) = some l →
      ∀ team, db.teams.find? (fun x => x.id == l.team_id) = some team →
        TeamOk db team.id) →
    updateTeamTotalsLoop db ids done = db := by
  induction ids with
  | nil => intro db done _ _ _; rfl
  | cons lid rest ih =>
    intro db done h2 h4 hok
    simp only [updateTeamTotalsLoop]
    cases hl : db.lineups.find? (fun x => x.id == lid) with
    | none =>
      exact ih db done h2 h4 fun lid' h => hok lid' (List.mem_cons_of_mem _ h)
    | some lineup =>
      dsimp only
      cases ht : db.teams.find? (fun x => x.id == lineup.team_id) with
      | none =>
        exact ih db done h2 h4 fun lid' h => hok lid' (List.mem_cons_of_mem _ h)
      | some team =>
        dsimp only
        by_cases hdn : done.contains team.id = true
        · rw [if_pos hdn]
          exact ih db done h2 h4 fun lid' h =>
            hok lid' (List.mem_cons_of_mem _ h)
        · rw [if_neg hdn]
          rw [utst_id team.id db h2 h4
            (hok lid (List.mem_cons_self _ _) lineup hl team ht)]
          exact ih db (team.id :: done) h2 h4 fun lid' h =>
            hok lid' (List.mem_cons_of_mem _ h)

/-! ## Re-ranking a settled league is the identity -/

theorem member_ext {a b : LeagueMembership} (h1 : a.id = b.id)
    (h2 : a.league_id = b.league_id) (h3 : a.user_id = b.user_id)
    (h4 : a.total_points = b.total_points) (h5 : a.position = b.position) :
    a = b := by
  cases a
  cases b
  simp_all

theorem insertDesc_map_pos (f : LeagueMembership → LeagueMembership)
    (m : LeagueMembership) (hfm : (f m).total_points = m.total_points) :
    ∀ xs : List LeagueMembership,
      (∀ x ∈ xs, (f x).total_points = x.total_points) →
      insertDesc (f m) (xs.map f) = (insertDesc m xs).map f := by
  intro xs
  induction xs with
  | nil => intro _; rfl
  | cons x xs ih =>
    intro hxs
    simp only [List.map_cons, insertDesc, hfm,
      hxs x (List.mem_cons_self x xs)]
    split_ifs with h
    · simp only [List.map_cons]
    · simp only [List.map_cons,
        ih fun y hy => hxs y (List.mem_cons_of_mem x hy)]

theorem sortDesc_map_pos (f : LeagueMembership → LeagueMembership) :
    ∀ ms : List LeagueMembership,
      (∀ x ∈ ms, (f x).total_points = x.total_points) →
      sortDesc (ms.map f) = (sortDesc ms).map f := by
  intro ms
  induction ms with
  | nil => intro _; rfl
  | cons m ms ih =>
    intro hms
    simp only [List.map_cons, sortDesc, List.foldr_cons]
    have hrec : List.foldr insertDesc [] (ms.map f) =
        (List.foldr insertDesc [] ms).map f := ih fun y hy =>
      hms y (List.mem_cons_of_mem m hy)
    rw [hrec]
    apply insertDesc_map_pos f m (hms m (List.mem_cons_self m ms))
    intro y hy
    have hy' : y ∈ ms := (sortDesc_perm ms).mem_iff.1 hy
    exact hms y (List.mem_cons_of_mem m hy')

theorem assignPositions_map_pos (f : LeagueMembership → LeagueMembership) :
    ∀ (k : ℤ) (ms : List LeagueMembership),
      (∀ x ∈ ms, f x = { x with position := (f x).position }) →
      assignPositions k (ms.map f) = assignPositions k ms := by
  intro k ms
  induction ms generalizing k with
  | nil => intro _; rfl
  | cons m ms ih =>
    intro hms
    simp only [List.map_cons, assignPositions]
    rw [hms m (List.mem_cons_self m ms),
      ih (k + 1) fun y hy => hms y (List.mem_cons_of_mem m hy)]

theorem standingsList_mem_league {db : DB} {lid : Nat} {r : LeagueMembership}
    (hr : r ∈ standingsList db lid) : (r.league_id == lid) = true := by
  unfold standingsList at hr
  rcases mem_assignPositions_fields hr with ⟨a, ha, -, hlg, -, -⟩
  have hpred := (List.mem_filter.1 ((sortDesc_perm _).mem_iff.1 ha)).2
  rw [hlg]
  exact hpred

/-- Ranking is insensitive to a pointwise rewrite of the membership rows
that preserves league, total and everything but the position. -/
theorem standingsList_map_congr (lid : Nat) (db : DB)
    (f : LeagueMembership → LeagueMembership)
    (hkeep : ∀ m ∈ db.memberships, (f m).league_id = m.league_id ∧
      (f m).total_points = m.total_points ∧
      f m = { m with position := (f m).position }) :
    standingsList { db with memberships := db.memberships.map f } lid =
      standingsList db lid := by
  unfold standingsList
  rw [show ({ db with memberships := db.memberships.map f } : DB).memberships
    = db.memberships.map f from rfl]
  rw [filter_map_pt f _ _ fun x hx => by rw [(hkeep x hx).1]]
  rw [sortDesc_map_pos f _ fun x hx => (hkeep x (List.mem_filter.1 hx).1).2.1]
  rw [assignPositions_map_pos f 1 _ fun x hx =>
    (hkeep x (List.mem_filter.1 ((sortDesc_perm _).mem_iff.1 hx)).1).2.2]

/-- With unique membership ids, writing back a league's ranked positions
does not change any league's ranked list. -/
theorem uls_standingsList (lid₂ lid : Nat) (db : DB)
    (hids : membershipIdsNodup db) :
    standingsList (update_league_standings lid₂ db) lid =
      standingsList db lid := by
  simp only [update_league_standings]
  apply standingsList_map_congr
  intro m hm
  cases hf : (standingsList db lid₂).find? (fun r => r.id == m.id) with
  | none => exact ⟨rfl, rfl, rfl⟩
  | some r =>
    obtain ⟨h1, h2, h3, h4⟩ := uls_row_fields lid₂ db hids hm hf
    exact ⟨h2, h4, member_ext h1 h2 h3 h4 rfl⟩

/-- A freshly ranked league is settled: re-ranking writes every row back
unchanged. -/
theorem uls_standings_ok (lid : Nat) (db : DB) (hids : membershipIdsNodup db) :
    StandingsOk (update_league_standings lid db) lid := by
  intro m' hm' r hr
  rw [uls_standingsList lid lid db hids] at hr
  simp only [update_league_standings] at hm'
  rcases List.mem_map.1 hm' with ⟨m, hm, hfm⟩
  cases hf : (standingsList db lid).find? (fun x => x.id == m.id) with
  | none =>
    rw [hf] at hfm
    rw [← hfm] at hr
    rw [hf] at hr
    cases hr
  | some r₀ =>
    rw [hf] at hfm
    have hid : r₀.id = m.id := (uls_row_fields lid db hids hm hf).1
    rw [← hfm, hid, hf] at hr
    injection hr with he
    rw [← he]
    exact hfm

/-- Ranking one league preserves any settled league's standings. -/
theorem uls_preserves_standings_ok (lid₂ lid : Nat) (db : DB)
    (hids : membershipIdsNodup db) (hok : StandingsOk db lid) :
    StandingsOk (update_league_standings lid₂ db) lid := by
  by_cases heq : lid₂ = lid
  · subst heq
    exact uls_standings_ok lid₂ db hids
  · intro m' hm' r hr
    rw [uls_standingsList lid₂ lid db hids] at hr
    simp only [update_league_standings] at hm'
    rcases List.mem_map.1 hm' with ⟨m, hm, hfm⟩
    cases hf : (standingsList db lid₂).find? (fun x => x.id == m.id) with
    | none =>
      rw [hf] at hfm
      rw [← hfm] at hr ⊢
      exact hok m hm r hr
    | some r₀ =>
      rw [hf] at hfm
      have hid : r₀.id = m.id := (uls_row_fields lid₂ db hids hm hf).1
      rw [← hfm, hid] at hr
      have hrm : r = m := hok m hm r hr
      have hrleague : (r.league_id == lid) = true :=
        standingsList_mem_league (List.mem_of_find?_eq_some hr)
      have hr₀league : (r₀.league_id == lid₂) = true :=
        standingsList_mem_league (List.mem_of_find?_eq_some hf)
      have h2 : r₀.league_id = m.league_id :=
        (uls_row_fields lid₂ db hids hm hf).2.1
      exfalso
      apply heq
      have ha : m.league_id = lid := by
        rw [← hrm]
        simpa using hrleague
      have hb : m.league_id = lid₂ := by
        rw [← h2]
        simpa using hr₀league
      rw [← ha, ← hb]

/-- Re-ranking a settled league leaves the state unchanged. -/
theorem uls_id (lid : Nat) (db : DB) (hok : StandingsOk db lid) :
    update_league_standings lid db = db := by
  simp only [update_league_standings]
  have hmms : (db.memberships.map fun m =>
      match (standingsList db lid).find? (fun r => r.id == m.id) with
      | some r => r
      | none => m) = db.memberships := by
    apply map_eq_self
    intro m hm
    cases hf : (standingsList db lid).find? (fun r => r.id == m.id) with
    | none => rfl
    | some r => exact hok m hm r hf
  rw [hmms]

/-- Loop 3 settles the standings of every touched league and preserves
already-settled ones. -/
theorem updateStandingsLoop_ok (ids : List Nat) :
    ∀ (db : DB) (done : List Nat), membershipIdsNodup db →
    (∀ lg ∈ done, StandingsOk db lg) →
    (∀ lg ∈ done, StandingsOk (updateStandingsLoop db ids done) lg) ∧
    (∀ lid ∈ ids, ∀ l, db.lineups.find? (fun x => x.id == lid) = some l →
      ∀ team, db.teams.find? (fun x => x.id == l.team_id) = some team →
        StandingsOk (updateStandingsLoop db ids done) team.league_id) := by
  induction ids with
  | nil =>
    intro db done _ hdone
    exact ⟨hdone, fun lid h => absurd h (List.not_mem_nil lid)⟩
  | cons lid0 rest ih =>
    intro db done hmids hdone
    simp only [updateStandingsLoop]
    cases hl : db.lineups.find? (fun x => x.id == lid0) with
    | none =>
      dsimp only
      obtain ⟨c1, c2⟩ := ih db done hmids hdone
      refine ⟨c1, ?_⟩
      intro lid' hmem l hfindl team hfindteam
      rcases List.mem_cons.1 hmem with rfl | hmem'
      · rw [hl] at hfindl
        cases hfindl
      · exact c2 lid' hmem' l hfindl team hfindteam
    | some lineup =>
      dsimp only
      cases ht : db.teams.find? (fun x => x.id == lineup.team_id) with
      | none =>
        dsimp only
        obtain ⟨c1, c2⟩ := ih db done hmids hdone
        refine ⟨c1, ?_⟩
        intro lid' hmem l hfindl team hfindteam
        rcases List.mem_cons.1 hmem with rfl | hmem'
        · rw [hl] at hfindl
          injection hfindl with he
          subst he
          rw [ht] at hfindteam
          cases hfindteam
        · exact c2 lid' hmem' l hfindl team hfindteam
      | some team₀ =>
        dsimp only
        by_cases hdn : done.contains team₀.league_id = true
        · rw [if_pos hdn]
          obtain ⟨c1, c2⟩ := ih db done hmids hdone
          refine ⟨c1, ?_⟩
          intro lid' hmem l hfindl team hfindteam
          rcases List.mem_cons.1 hmem with rfl | hmem'
          · rw [hl] at hfindl
            injection hfindl with he
            subst he
            rw [ht] at hfindteam
            injection hfindteam with he2
            subst he2
            exact c1 team₀.league_id (by simpa using hdn)
          · exact c2 lid' hmem' l hfindl team hfindteam
        · rw [if_neg hdn]
          have hmids₂ : membershipIdsNodup
              (update_league_standings team₀.league_id db) := by
            unfold membershipIdsNodup
            rw [memberIds_eq_of_key (uls_members_key team₀.league_id db hmids)]
            exact hmids
          have hdone₂ : ∀ lg ∈ team₀.league_id :: done,
              StandingsOk (update_league_standings team₀.league_id db) lg := by
            intro lg hlg
            rcases List.mem_cons.1 hlg with rfl | hlg'
            · exact uls_standings_ok team₀.league_id db hmids
            · exact uls_preserves_standings_ok team₀.league_id lg db hmids
                (hdone lg hlg')
          obtain ⟨c1, c2⟩ := ih (update_league_standings team₀.league_id db)
            (team₀.league_id :: done) hmids₂ hdone₂
          refine ⟨fun lg hlg => c1 lg (List.mem_cons_of_mem _ hlg), ?_⟩
          intro lid' hmem l hfindl team hfindteam
          rcases List.mem_cons.1 hmem with rfl | hmem'
          · rw [hl] at hfindl
            injection hfindl with he
            subst he
            rw [ht] at hfindteam
            injection hfindteam with he2
            subst he2
            exact c1 team₀.league_id (List.mem_cons_self _ _)
          · exact c2 lid' hmem' l hfindl team hfindteam

/-- If every touched league's standings are already settled, loop 3 leaves
the state unchanged. -/
theorem updateStandingsLoop_id (ids : List Nat) :
    ∀ (db : DB) (done : List Nat),
    (∀ lid ∈ ids, ∀ l, db.lineups.find? (fun x => x.id == lid) = some l →
      ∀ team, db.teams.find? (fun x => x.id == l.team_id) = some team →
        StandingsOk db team.league_id) →
    updateStandingsLoop db ids done = db := by
  induction ids with
  | nil => intro db done _; rfl
  | cons lid0 rest ih =>
    intro db done hok
    simp only [updateStandingsLoop]
    cases hl : db.lineups.find? (fun x => x.id == lid0) with
    | none =>
      exact ih db done fun lid' h => hok lid' (List.mem_cons_of_mem _ h)
    | some lineup =>
      dsimp only
      cases ht : db.teams.find? (fun x => x.id == lineup.team_id) with
      | none =>
        exact ih db done fun lid' h => hok lid' (List.mem_cons_of_mem _ h)
      | some team₀ =>
        dsimp only
        by_cases hdn : done.contains team₀.league_id = true
        · rw [if_pos hdn]
          exact ih db done fun lid' h => hok lid' (List.mem_cons_of_mem _ h)
        · rw [if_neg hdn]
          rw [uls_id team₀.league_id db
            (hok lid0 (List.mem_cons_self _ _) lineup hl team₀ ht)]
          exact ih db (team₀.league_id :: done) fun lid' h =>
            hok lid' (List.mem_cons_of_mem _ h)

/-- First find by a unique key of a member is the member itself. -/
theorem find?_beq_of_mem {α β : Type _} [BEq β] [LawfulBEq β] (f : α → β)
    {a : α} : ∀ {l : List α}, (l.map f).Nodup → a ∈ l →
    l.find? (fun x => f x == f a) = some a := by
  intro l
  induction l with
  | nil => intro _ hmem; cases hmem
  | cons b l ih =>
    intro hnd hmem
    have hnd' : (f b :: l.map f).Nodup := by simpa using hnd
    simp only [List.find?]
    rcases List.mem_cons.1 hmem with rfl | hmem'
    · simp
    · cases hfb : (f b == f a) with
      | true =>
        exfalso
        have hfba : f b = f a := by simpa using hfb
        have hin : f a ∈ l.map f := List.mem_map_of_mem f hmem'
        exact (List.nodup_cons.1 hnd').1 (hfba ▸ hin)
      | false => exact ih (List.nodup_cons.1 hnd').2 hmem'

theorem lineupKey_tour_congr (tid : Nat) :
    ∀ x y : WeeklyLineup, lineupKey x = lineupKey y →
      (x.tournament_id == tid) = (y.tournament_id == tid) := by
  intro x y hxy
  have h : x.tournament_id = y.tournament_id := congrArg (fun k => k.2.2.1) hxy
  rw [h]

/-- The settlement pipeline is idempotent: a second run on an unchanged
settled state is the identity. -/
theorem uws_idempotent (db : DB) (tournament_id : Nat)
    (h1 : lineupIdsNodup db) (h2 : teamIdsNodup db) (h3 : teamPairsNodup db)
    (h4 : membershipIdsNodup db) :
    (update_weekly_lineup_scores tournament_id
        (update_weekly_lineup_scores tournament_id db).1).1 =
      (update_weekly_lineup_scores tournament_id db).1 := by
  have hsettle := settlement_team_ok db tournament_id h1 h3 h4
  have hun : (update_weekly_lineup_scores tournament_id db).1 =
      updateStandingsLoop (updateTeamTotalsLoop (scoreLineupsLoop db
        ((db.lineups.filter fun x =>
          x.tournament_id == tournament_id).map WeeklyLineup.id)).1
        ((db.lineups.filter fun x =>
          x.tournament_id == tournament_id).map WeeklyLineup.id) [])
        ((db.lineups.filter fun x =>
          x.tournament_id == tournament_id).map WeeklyLineup.id) [] := rfl
  rw [hun] at hsettle ⊢
  set ids := (db.lineups.filter fun x =>
    x.tournament_id == tournament_id).map WeeklyLineup.id with hids
  have hidsnd : ids.Nodup := by
    rw [hids]
    exact ((List.filter_sublist db.lineups).map WeeklyLineup.id).nodup h1
  obtain ⟨f1, f2, f3, f4, f5, f6⟩ := scoreLineupsLoop_frame ids db h1
  have h1b : lineupIdsNodup (scoreLineupsLoop db ids).1 := by
    unfold lineupIdsNodup
    rw [lineupIds_eq_of_key f6]
    exact h1
  have h3b : teamPairsNodup (scoreLineupsLoop db ids).1 := by
    unfold teamPairsNodup
    rw [f3]
    exact h3
  have h4b : membershipIdsNodup (scoreLineupsLoop db ids).1 := by
    unfold membershipIdsNodup
    rw [f5]
    exact h4
  obtain ⟨c1, c2, d3, d4, d5, d6, d7, d8⟩ :=
    updateTeamTotalsLoop_spec ids (scoreLineupsLoop db ids).1 [] h3b h4b
      (fun tid h => absurd h (List.not_mem_nil tid))
  have h4c : membershipIdsNodup
      (updateTeamTotalsLoop (scoreLineupsLoop db ids).1 ids []) := by
    unfold membershipIdsNodup
    rw [memberIds_eq_of_key d8]
    exact h4b
  obtain ⟨e1, e2, e3, e4, e5, e6, e7⟩ :=
    updateStandingsLoop_preserves ids
      (updateTeamTotalsLoop (scoreLineupsLoop db ids).1 ids []) [] h4c
  obtain ⟨-, g2⟩ := updateStandingsLoop_ok ids
    (updateTeamTotalsLoop (scoreLineupsLoop db ids).1 ids []) [] h4c
    (fun lg h => absurd h (List.not_mem_nil lg))
  set db3 := updateStandingsLoop
    (updateTeamTotalsLoop (scoreLineupsLoop db ids).1 ids []) ids [] with hdb3
  have hkey3 : db3.lineups.map lineupKey = db.lineups.map lineupKey := by
    rw [hdb3, e1, d3]
    exact f6
  have hlineups31 : db3.lineups = (scoreLineupsLoop db ids).1.lineups := by
    rw [hdb3, e1, d3]
  have hteams32 : db3.teams =
      (updateTeamTotalsLoop (scoreLineupsLoop db ids).1 ids []).teams := by
    rw [hdb3, e5]
  have h1d : lineupIdsNodup db3 := by
    unfold lineupIdsNodup
    rw [lineupIds_eq_of_key hkey3]
    exact h1
  have h2d : teamIdsNodup db3 := by
    unfold teamIdsNodup
    rw [hteams32, teamIds_eq_of_key d7, f3]
    exact h2
  have h4d : membershipIdsNodup db3 := by
    unfold membershipIdsNodup
    rw [hdb3, memberIds_eq_of_key e6]
    exact h4c
  have hres31 : db3.results = db.results := by rw [hdb3, e2, d4, f1]
  have hpl31 : db3.players = db.players := by rw [hdb3, e3, d5, f2]
  have hlg31 : db3.leagues = db.leagues := by rw [hdb3, e4, d6, f4]
  -- the second run processes the same ids
  have hids2 : (db3.lineups.filter fun x =>
      x.tournament_id == tournament_id).map WeeklyLineup.id = ids := by
    rw [hids]
    apply lineupIds_eq_of_key
    exact filter_map_key lineupKey _ (lineupKey_tour_congr tournament_id)
      db3.lineups db.lineups hkey3
  -- run 2, loop 1 is the identity
  have hrun1 : (scoreLineupsLoop db3 ids).1 = db3 := by
    apply scoreLineupsLoop_id ids db3 h1d
    intro lid hlid l hfindl team hfindteam league hfindleague
    rw [hlineups31] at hfindl
    rw [hteams32] at hfindteam
    have hmk := find?_map_key teamKey (fun x => x.id == l.team_id)
      (teamKey_pred_congr l.team_id)
      (updateTeamTotalsLoop (scoreLineupsLoop db ids).1 ids []).teams
      (scoreLineupsLoop db ids).1.teams d7
    rw [hfindteam] at hmk
    obtain ⟨team₁, hfindteam1, hkeyteam⟩ :
        ∃ team₁, (scoreLineupsLoop db ids).1.teams.find?
          (fun x => x.id == l.team_id) = some team₁ ∧
          teamKey team₁ = teamKey team := by
      cases hf1 : (scoreLineupsLoop db ids).1.teams.find?
          (fun x => x.id == l.team_id) with
      | none => rw [hf1] at hmk; simp at hmk
      | some team₁ =>
        rw [hf1] at hmk
        simp only [Option.map_some'] at hmk
        exact ⟨team₁, rfl, by injection hmk with h; exact h.symm⟩
    have hleagueid : team₁.league_id = team.league_id :=
      congrArg (fun k => k.2.2) hkeyteam
    have hfindleague1 : (scoreLineupsLoop db ids).1.leagues.find?
        (fun x => x.id == team₁.league_id) = some league := by
      rw [f4, hleagueid, ← hlg31]
      exact hfindleague
    have hfix1 := scoreLineupsLoop_settles ids db h1 hidsnd lid hlid l hfindl
      team₁ hfindteam1 league hfindleague1
    have hcongr := @calc_lineup_congr (FantasyScoring.init league) l db3
      (scoreLineupsLoop db ids).1 (by rw [hres31, f1]) (by rw [hpl31, f2])
    rw [hcongr]
    exact hfix1
  -- run 2, loop 2 is the identity
  have hrun2 : updateTeamTotalsLoop db3 ids [] = db3 := by
    apply updateTeamTotalsLoop_id ids db3 [] h2d h4d
    intro lid hlid l hfindl team hfindteam
    obtain ⟨l₀, hfil, hl₀id⟩ := List.mem_map.1 (hids ▸ hlid)
    obtain ⟨hl₀mem, hl₀pred⟩ := List.mem_filter.1 hfil
    have hl₀tid : l₀.tournament_id = tournament_id := by simpa using hl₀pred
    have hok := hsettle l₀ hl₀mem hl₀tid
    have hfind0 : db.lineups.find? (fun x => x.id == l₀.id) = some l₀ :=
      find?_beq_of_mem WeeklyLineup.id h1 hl₀mem
    have hmk := find?_map_key lineupKey (fun x => x.id == lid)
      (lineupKey_pred_congr lid) db3.lineups db.lineups hkey3
    have hfind0' : db.lineups.find? (fun x => x.id == lid) = some l₀ := by
      rw [← hl₀id]
      exact hfind0
    rw [hfindl, hfind0'] at hmk
    simp only [Option.map_some'] at hmk
    have hlkey : lineupKey l = lineupKey l₀ := by injection hmk
    have hlteam : l.team_id = l₀.team_id := congrArg (fun k => k.2.1) hlkey
    have hteamid : team.id = l.team_id := by
      simpa using List.find?_some hfindteam
    rw [hteamid, hlteam]
    exact hok
  -- run 2, loop 3 is the identity
  have hrun3 : updateStandingsLoop db3 ids [] = db3 := by
    apply updateStandingsLoop_id ids db3 []
    intro lid hlid l hfindl team hfindteam
    have hfindl2 : (updateTeamTotalsLoop (scoreLineupsLoop db ids).1 ids
        []).lineups.find? (fun x => x.id == lid) = some l := by
      rw [d3, ← hlineups31]
      exact hfindl
    have hfindteam2 : (updateTeamTotalsLoop (scoreLineupsLoop db ids).1 ids
        []).teams.find? (fun x => x.id == l.team_id) = some team := by
      rw [← hteams32]
      exact hfindteam
    exact g2 lid hlid l hfindl2 team hfindteam2
  have hun2 : (update_weekly_lineup_scores tournament_id db3).1 =
      updateStandingsLoop (updateTeamTotalsLoop (scoreLineupsLoop db3
        ((db3.lineups.filter fun x =>
          x.tournament_id == tournament_id).map WeeklyLineup.id)).1
        ((db3.lineups.filter fun x =>
          x.tournament_id == tournament_id).map WeeklyLineup.id) [])
        ((db3.lineups.filter fun x =>
          x.tournament_id == tournament_id).map WeeklyLineup.id) [] := rfl
  rw [hun2, hids2, hrun1, hrun2]
  exact hrun3

/-- C3: scoring is idempotent.  (a) Applying calculate_lineup_score a second
time to its own output against the same result data yields the identical
scored lineup and summary — per-slot points and the total are overwritten,
never accumulated.  (b) Running update_weekly_lineup_scores a second time with
no underlying data change leaves the whole settled state — every lineup's
points, every team's and membership's season total, and every membership's
standings position — unchanged.  The hypotheses are the schema's primary-key
and unique constraints. -/
theorem C3_idempotence (sc : FantasyScoring) (l : WeeklyLineup)
    (dbA db : DB) (tournament_id : Nat)
    (h1 : lineupIdsNodup db) (h2 : teamIdsNodup db) (h3 : teamPairsNodup db)
    (h4 : membershipIdsNodup db) :
    sc.calculate_lineup_score (sc.calculate_lineup_score l dbA).1 dbA =
      sc.calculate_lineup_score l dbA ∧
    (update_weekly_lineup_scores tournament_id
        (update_weekly_lineup_scores tournament_id db).1).1 =
      (update_weekly_lineup_scores tournament_id db).1 :=
  ⟨calc_lineup_idem sc l dbA, uws_idempotent db tournament_id h1 h2 h3 h4⟩

/-- C3 witness: idempotence evaluated on the concrete one-team database. -/
theorem C3_idempotence_witness :
    lineupIdsNodup witnessDb ∧ teamIdsNodup witnessDb ∧
    teamPairsNodup witnessDb ∧ membershipIdsNodup witnessDb ∧
    ((FantasyScoring.init defaultLeague).calculate_lineup_score
        ((FantasyScoring.init defaultLeague).calculate_lineup_score
          ⟨1, 1, 1, 1, 2, 3, 0, 0, 0, 0, none, none, none⟩ witnessDb).1
        witnessDb =
      (FantasyScoring.init defaultLeague).calculate_lineup_score
        ⟨1, 1, 1, 1, 2, 3, 0, 0, 0, 0, none, none, none⟩ witnessDb ∧
    (update_weekly_lineup_scores 1
        (update_weekly_lineup_scores 1 witnessDb).1).1 =
      (update_weekly_lineup_scores 1 witnessDb).1) := by
  refine ⟨?_, ?_, ?_, ?_, ?_⟩
  · simp [lineupIdsNodup, witnessDb]
  · simp [teamIdsNodup, witnessDb]
  · simp [teamPairsNodup, witnessDb]
  · simp [membershipIdsNodup, witnessDb]
  · exact C3_idempotence (FantasyScoring.init defaultLeague)
      ⟨1, 1, 1, 1, 2, 3, 0, 0, 0, 0, none, none, none⟩ witnessDb witnessDb 1
      (by simp [lineupIdsNodup, witnessDb])
      (by simp [teamIdsNodup, witnessDb])
      (by simp [teamPairsNodup, witnessDb])
      (by simp [membershipIdsNodup, witnessDb])

end

end Bunkered
